import Mathlib

/-!
Verification of the reliable-data-transfer protocol suite
(stop-and-wait rdt3.0, Go-Back-N, simplified TCP socket)
against its natural-language specification.

The definitions below are shallow embeddings of the Python sources:
fase1/rdt30.py, fase2/gbn.py and fase3/tcp_socket.py. Byte strings are
lists of naturals, sequence numbers are Nat (GBN, rdt3.0) or Int
(TCP, where Python ints are unbounded), wall-clock instants are
rationals, dictionaries are association lists with set-style update,
and each background loop is embedded as its per-event step function.
-/

/-- Modelled from the spec: the frame codec (utils/packet.py) is not part
of the sources, only its callers are. Per the spec, decode of a wire
frame yields its type, optional sequence number, payload and a validity
bit that is false exactly when the embedded checksum disagrees with the
recomputed one or the frame is too short. A received frame is therefore
represented directly by that decode result; corruption may alter any of
the decoded fields while forcing valid to false. -/
structure ParsedPacket where
  ptype : Nat
  seq : Nat
  payload : List Nat
  valid : Bool
deriving DecidableEq

/-- Packet.TYPE_DATA of the codec interface. -/
def Packet.TYPE_DATA : Nat := 0

/-- Packet.TYPE_ACK of the codec interface. -/
def Packet.TYPE_ACK : Nat := 1

/-- Packet.TYPE_NAK of the codec interface. -/
def Packet.TYPE_NAK : Nat := 2

/-- Lookup in a Nat-keyed association list (Python dict read). -/
def assocLookup : List (Nat × List Nat) → Nat → Option (List Nat)
  | [], _ => none
  | p :: rest, k => if p.1 = k then some p.2 else assocLookup rest k

/-- Update of a Nat-keyed association list (Python dict assignment):
the key is bound to the new value and any previous binding is dropped. -/
def assocSet (l : List (Nat × List Nat)) (k : Nat) (v : List Nat) :
    List (Nat × List Nat) :=
  (k, v) :: l.filter (fun p => ¬ p.1 = k)

/-- State of GBNSender (fase2/gbn.py): window pointers, window capacity,
the buffered-frame dictionary sndpkt, the single retransmission timer
(modelled by its deadline, none when stopped) and statistics. -/
structure GBNSenderState where
  base : Nat
  nextseqnum : Nat
  N : Nat
  sndpkt : List (Nat × List Nat)
  timer : Option ℚ
  timeout_interval : ℚ
  retransmissions : Nat
  bytes_sent : Nat
deriving DecidableEq

/-- Initial GBNSender state: base = 0, nextseqnum = 0, empty buffer,
no timer running. -/
def gbnSenderInit (window_size : Nat) (timeout : ℚ) : GBNSenderState :=
  ⟨0, 0, window_size, [], none, timeout, 0, 0⟩

/-- GBNSender.rdt_send: if nextseqnum < base + N, build the DATA frame,
buffer it, transmit it, start the timer when base = nextseqnum held
before incrementing, increment nextseqnum and report success; otherwise
refuse the data and report failure. Returns the success flag, the new
state and the frames handed to the channel. -/
def GBNSender.rdt_send (s : GBNSenderState) (data : List Nat) (now : ℚ) :
    Bool × GBNSenderState × List ParsedPacket :=
  if s.nextseqnum < s.base + s.N then
    let seqnum := s.nextseqnum
    let timer1 := if s.base = s.nextseqnum
      then some (now + s.timeout_interval) else s.timer
    (true,
      { s with
          sndpkt := assocSet s.sndpkt seqnum data
          timer := timer1
          nextseqnum := s.nextseqnum + 1
          bytes_sent := s.bytes_sent + data.length },
      [⟨Packet.TYPE_DATA, seqnum, data, true⟩])
  else
    (false, s, [])

/-- One iteration of GBNSender._ack_loop on a received frame, already
decoded: frames whose type is not ACK and corrupt frames are discarded;
a valid ACK carrying number a sets base to a + 1, drops the buffered
frames with sequence below the new base, and stops the timer when the
new base equals nextseqnum, else restarts it. -/
def GBNSender.ack_loop_step (s : GBNSenderState) (rcvpkt : ParsedPacket)
    (now : ℚ) : GBNSenderState :=
  if ¬ rcvpkt.ptype = Packet.TYPE_ACK then s
  else if rcvpkt.valid = false then s
  else
    let base1 := rcvpkt.seq + 1
    let sndpkt1 := s.sndpkt.filter (fun p => ¬ p.1 < base1)
    let timer1 := if base1 = s.nextseqnum then none
      else some (now + s.timeout_interval)
    { s with base := base1, sndpkt := sndpkt1, timer := timer1 }

/-- GBNSender._timeout_handler: retransmit every buffered frame with
sequence in the window, in ascending order, count the retransmissions
and restart the timer. -/
def GBNSender.timeout_handler (s : GBNSenderState) (now : ℚ) :
    GBNSenderState × List ParsedPacket :=
  let resent := (List.range' s.base (s.nextseqnum - s.base)).filterMap
    (fun q => (assocLookup s.sndpkt q).map
      (fun d => (⟨Packet.TYPE_DATA, q, d, true⟩ : ParsedPacket)))
  ({ s with
      retransmissions := s.retransmissions + resent.length
      timer := some (now + s.timeout_interval) },
    resent)

/-- The GBN window invariant of the spec: base is at most nextseqnum,
the window never exceeds its capacity, and the buffered-frame table
holds exactly the sequence numbers in the interval from base
(inclusive) to nextseqnum (exclusive). -/
def GBNSender.window_inv (s : GBNSenderState) : Prop :=
  s.base ≤ s.nextseqnum ∧ s.nextseqnum ≤ s.base + s.N ∧
  ∀ q : Nat, (assocLookup s.sndpkt q).isSome ↔ (s.base ≤ q ∧ q < s.nextseqnum)

theorem assocLookup_filter_ne (l : List (Nat × List Nat)) (k q : Nat)
    (h : ¬ q = k) :
    assocLookup (l.filter (fun p => ¬ p.1 = k)) q = assocLookup l q := by
  induction l with
  | nil => rfl
  | cons p rest ih =>
    by_cases hpk : p.1 = k
    · rw [List.filter_cons, if_neg (by simp [hpk])]
      rw [ih]
      have hpq : ¬ p.1 = q := by
        intro hc
        exact h (by rw [← hc, hpk])
      simp [assocLookup, hpq]
    · rw [List.filter_cons, if_pos (by simp [hpk])]
      by_cases hpq : p.1 = q
      · simp [assocLookup, hpq]
      · simp only [assocLookup, if_neg hpq]
        exact ih

theorem assocLookup_assocSet (l : List (Nat × List Nat)) (k : Nat)
    (v : List Nat) (q : Nat) :
    assocLookup (assocSet l k v) q =
      if q = k then some v else assocLookup l q := by
  unfold assocSet
  by_cases h : q = k
  · simp [assocLookup, h]
  · rw [if_neg h]
    simp only [assocLookup, if_neg (fun hc : k = q => h hc.symm)]
    exact assocLookup_filter_ne l k q h

theorem assocLookup_filter_ge (l : List (Nat × List Nat)) (b : Nat) (q : Nat) :
    assocLookup (l.filter (fun p => ¬ p.1 < b)) q =
      if q < b then none else assocLookup l q := by
  induction l with
  | nil => simp [assocLookup]
  | cons p rest ih =>
    by_cases hq : p.1 < b
    · rw [List.filter_cons, if_neg (by simp [hq])]
      rw [ih]
      by_cases hpq : p.1 = q
      · rw [if_pos (hpq ▸ hq), if_pos (hpq ▸ hq)]
      · simp only [assocLookup, if_neg hpq]
    · rw [List.filter_cons, if_pos (by simp [hq])]
      by_cases hpq : p.1 = q
      · simp [assocLookup, hpq, hpq ▸ hq]
      · simp only [assocLookup, if_neg hpq]
        exact ih

/-- State of GBNReceiver (fase2/gbn.py): the expected sequence number,
the last ACK frame built (resent verbatim on any anomaly), the list of
payloads delivered upward, and statistics counters. -/
structure GBNReceiverState where
  expectedseqnum : Nat
  sndpkt : ParsedPacket
  messages : List (List Nat)
  received_count : Nat
  corrupted_count : Nat
  out_of_order_count : Nat
deriving DecidableEq

/-- GBNReceiver.make_pkt: build an ACK frame with the given sequence
number and empty payload. -/
def GBNReceiver.make_pkt (seqnum : Nat) : ParsedPacket :=
  ⟨Packet.TYPE_ACK, seqnum, [], true⟩

/-- Initial GBNReceiver state: expectedseqnum = 0 and the stored ACK
frame is ACK(0). -/
def gbnReceiverInit : GBNReceiverState :=
  ⟨0, GBNReceiver.make_pkt 0, [], 0, 0, 0⟩

/-- GBNReceiver.rdt_rcv on a received frame, already decoded. Frames
whose type is not DATA are dropped with no reply. An uncorrupted DATA
frame carrying the expected sequence number is delivered, answered with
a freshly built and stored ACK(expectedseqnum), and expectedseqnum is
incremented. Any other DATA frame (corrupt, or out of order) triggers a
resend of the stored ACK frame and no delivery. Returns the new state,
the payload delivered upward (if any) and the frames sent back. -/
def GBNReceiver.rdt_rcv (s : GBNReceiverState) (rcvpkt : ParsedPacket) :
    GBNReceiverState × Option (List Nat) × List ParsedPacket :=
  if ¬ rcvpkt.ptype = Packet.TYPE_DATA then (s, none, [])
  else if rcvpkt.valid = true ∧ rcvpkt.seq = s.expectedseqnum then
    let ackpkt := GBNReceiver.make_pkt s.expectedseqnum
    ({ s with
        expectedseqnum := s.expectedseqnum + 1
        sndpkt := ackpkt
        messages := s.messages ++ [rcvpkt.payload]
        received_count := s.received_count + 1 },
      some rcvpkt.payload, [ackpkt])
  else
    let s1 := if rcvpkt.valid = false
      then { s with corrupted_count := s.corrupted_count + 1 }
      else { s with out_of_order_count := s.out_of_order_count + 1 }
    (s1, none, [s.sndpkt])

/-- Run GBNReceiver.rdt_rcv over a list of incoming frames from a given
state, logging each delivery as the pair of the sequence number it was
accepted under and the delivered payload. -/
def GBNReceiver.run_from (s : GBNReceiverState)
    (log : List (Nat × List Nat)) :
    List ParsedPacket → GBNReceiverState × List (Nat × List Nat)
  | [] => (s, log)
  | pkt :: rest =>
    let r := GBNReceiver.rdt_rcv s pkt
    match r.2.1 with
    | some d => GBNReceiver.run_from r.1 (log ++ [(s.expectedseqnum, d)]) rest
    | none => GBNReceiver.run_from r.1 log rest

/-- Run the receiver from its initial state. -/
def GBNReceiver.run (pkts : List ParsedPacket) :
    GBNReceiverState × List (Nat × List Nat) :=
  GBNReceiver.run_from gbnReceiverInit [] pkts

/-- The four FSM states of RDT30Sender (fase1/rdt30.py). -/
inductive RDT30FSM
  | wait_call_0
  | wait_ack_0
  | wait_call_1
  | wait_ack_1
deriving DecidableEq

/-- State of RDT30Sender: FSM state, the outstanding frame (none when
no frame is outstanding), the retransmission timer deadline (none when
stopped) and statistics. -/
structure RDT30SenderState where
  fsm : RDT30FSM
  sndpkt : Option ParsedPacket
  timer : Option ℚ
  timeout_interval : ℚ
  retransmissions : Nat
deriving DecidableEq

/-- One iteration of RDT30Sender._wait_for_ack on a received reply,
already decoded, while waiting for the ACK with number expected_seq.
A corrupt reply, or a well-formed ACK with the wrong sequence number,
is discarded with no action. A well-formed ACK with the expected
sequence number stops the timer, alternates the FSM to the opposite
wait-for-call state, clears the outstanding frame and reports success.
Any other reply leaves the loop waiting. Returns the new state, the
value returned to the caller (some true on success, none to keep
waiting) and the frames sent (always none in this handler). -/
def RDT30Sender.wait_for_ack_step (s : RDT30SenderState)
    (expected_seq : Nat) (rcvpkt : ParsedPacket) :
    RDT30SenderState × Option Bool × List ParsedPacket :=
  if rcvpkt.valid = false ∨
      (rcvpkt.valid = true ∧ rcvpkt.ptype = Packet.TYPE_ACK ∧
        ¬ rcvpkt.seq = expected_seq) then
    (s, none, [])
  else if rcvpkt.valid = true ∧ rcvpkt.ptype = Packet.TYPE_ACK ∧
      rcvpkt.seq = expected_seq then
    ({ s with
        timer := none
        fsm := if expected_seq = 0 then RDT30FSM.wait_call_1
          else RDT30FSM.wait_call_0
        sndpkt := none },
      some true, [])
  else
    (s, none, [])

/-- RDT30Sender._timeout_handler: count a retransmission, resend the
outstanding frame if there is one, and restart the timer. -/
def RDT30Sender.timeout_handler (s : RDT30SenderState) (now : ℚ) :
    RDT30SenderState × List ParsedPacket :=
  ({ s with
      retransmissions := s.retransmissions + 1
      timer := some (now + s.timeout_interval) },
    match s.sndpkt with
    | some p => [p]
    | none => [])

theorem gbn_rdt_send_eq_of_room (s : GBNSenderState) (data : List Nat)
    (now : ℚ) (h : s.nextseqnum < s.base + s.N) :
    GBNSender.rdt_send s data now =
      (true,
        { s with
            sndpkt := assocSet s.sndpkt s.nextseqnum data
            timer := if s.base = s.nextseqnum
              then some (now + s.timeout_interval) else s.timer
            nextseqnum := s.nextseqnum + 1
            bytes_sent := s.bytes_sent + data.length },
        [⟨Packet.TYPE_DATA, s.nextseqnum, data, true⟩]) := by
  unfold GBNSender.rdt_send
  rw [if_pos h]

theorem gbn_rdt_send_eq_of_full (s : GBNSenderState) (data : List Nat)
    (now : ℚ) (h : ¬ s.nextseqnum < s.base + s.N) :
    GBNSender.rdt_send s data now = (false, s, []) := by
  unfold GBNSender.rdt_send
  rw [if_neg h]

theorem gbn_ack_step_eq_of_invalid (s : GBNSenderState) (pkt : ParsedPacket)
    (now : ℚ) (h : ¬ pkt.ptype = Packet.TYPE_ACK ∨ pkt.valid = false) :
    GBNSender.ack_loop_step s pkt now = s := by
  unfold GBNSender.ack_loop_step
  rcases h with h | h
  · rw [if_pos h]
  · by_cases h1 : ¬ pkt.ptype = Packet.TYPE_ACK
    · rw [if_pos h1]
    · rw [if_neg h1, if_pos h]

theorem gbn_ack_step_eq_of_valid (s : GBNSenderState) (pkt : ParsedPacket)
    (now : ℚ) (hty : pkt.ptype = Packet.TYPE_ACK) (hv : pkt.valid = true) :
    GBNSender.ack_loop_step s pkt now =
      { s with
          base := pkt.seq + 1
          sndpkt := s.sndpkt.filter (fun p => ¬ p.1 < pkt.seq + 1)
          timer := if pkt.seq + 1 = s.nextseqnum then none
            else some (now + s.timeout_interval) } := by
  unfold GBNSender.ack_loop_step
  rw [if_neg (by simp [hty]), if_neg (by simp [hv])]

/-- Concrete GBN sender state used to refute claim C1: base = 2,
nextseqnum = 3, one outstanding frame with sequence 2, timer running. -/
def gbnC1State : GBNSenderState := ⟨2, 3, 5, [(2, [7])], some 10, 2, 0, 0⟩

/-- C1 fails on the code: GBNSender._ack_loop sets base to the ACK
number plus one with no monotonicity guard, so processing a valid ACK
with cumulative number 0 while base = 2 moves base backward to 1 —
neither a no-op nor a forward move. -/
theorem gbn_ack_backward_cex :
    (GBNSender.ack_loop_step gbnC1State ⟨Packet.TYPE_ACK, 0, [], true⟩ 11).base
      < gbnC1State.base := by
  rw [gbn_ack_step_eq_of_valid gbnC1State ⟨Packet.TYPE_ACK, 0, [], true⟩ 11 rfl rfl]
  decide

/-- C1 amended: processing a valid ACK with number a sets base to a + 1
unconditionally — so base moves backward whenever a + 1 < base and an
ACK with a = base − 1 leaves base unchanged — keeps nextseqnum, keeps
exactly the buffered frames with sequence at least a + 1, and stops the
timer when a + 1 = nextseqnum, else restarts it with a fresh deadline
(so even a stale ACK resets the timer); corrupt frames and frames that
are not ACKs leave the sender state entirely unchanged. -/
theorem gbn_ack_loop_step_amended :
    ∀ (s : GBNSenderState) (pkt : ParsedPacket) (now : ℚ),
    (pkt.ptype = Packet.TYPE_ACK → pkt.valid = true →
      (GBNSender.ack_loop_step s pkt now).base = pkt.seq + 1 ∧
      (GBNSender.ack_loop_step s pkt now).nextseqnum = s.nextseqnum ∧
      (∀ q : Nat, assocLookup (GBNSender.ack_loop_step s pkt now).sndpkt q =
        if q < pkt.seq + 1 then none else assocLookup s.sndpkt q) ∧
      (GBNSender.ack_loop_step s pkt now).timer =
        (if pkt.seq + 1 = s.nextseqnum then none
          else some (now + s.timeout_interval)) ∧
      (pkt.seq + 1 < s.base →
        (GBNSender.ack_loop_step s pkt now).base < s.base)) ∧
    (¬ pkt.ptype = Packet.TYPE_ACK ∨ pkt.valid = false →
      GBNSender.ack_loop_step s pkt now = s) := by
  intro s pkt now
  constructor
  · intro hty hv
    rw [gbn_ack_step_eq_of_valid s pkt now hty hv]
    refine ⟨rfl, rfl, ?_, rfl, ?_⟩
    · intro q
      exact assocLookup_filter_ge s.sndpkt (pkt.seq + 1) q
    · intro h
      exact h
  · intro h
    exact gbn_ack_step_eq_of_invalid s pkt now h

/-- Witness for the amended C1 theorem at concrete inputs. -/
theorem gbn_ack_loop_step_amended_witness :
    (GBNSender.ack_loop_step gbnC1State ⟨Packet.TYPE_ACK, 1, [], true⟩ 11).base = 2 ∧
    GBNSender.ack_loop_step gbnC1State ⟨Packet.TYPE_DATA, 1, [], true⟩ 11 = gbnC1State :=
  ⟨((gbn_ack_loop_step_amended gbnC1State ⟨Packet.TYPE_ACK, 1, [], true⟩ 11).1
      rfl rfl).1,
   (gbn_ack_loop_step_amended gbnC1State ⟨Packet.TYPE_DATA, 1, [], true⟩ 11).2
      (Or.inl (by decide))⟩

/-- C2 fails on the code: from the initial sender state (base = 0,
nextseqnum = 0) the ACK loop accepts a valid ACK carrying number 5 and
sets base to 6, violating base ≤ nextseqnum — the loop never checks the
ACK number against the window. -/
theorem gbn_window_inv_cex :
    ¬ GBNSender.window_inv
      (GBNSender.ack_loop_step (gbnSenderInit 5 2)
        ⟨Packet.TYPE_ACK, 5, [], true⟩ 0) := by
  intro h
  have hb := h.1
  rw [gbn_ack_step_eq_of_valid (gbnSenderInit 5 2)
    ⟨Packet.TYPE_ACK, 5, [], true⟩ 0 rfl rfl] at hb
  exact absurd hb (by decide)

/-- C2 amended: the window invariant — base ≤ nextseqnum ≤ base + N and
the buffered table holding exactly the sequences in the window — holds
initially and is preserved by rdt_send, by the timeout handler, by the
discard of corrupt or non-ACK frames, and by every processed valid ACK
whose number a satisfies base − 1 ≤ a < nextseqnum; a valid ACK outside
that range (possible, since the loop never checks it) can break the
invariant. -/
theorem gbn_window_inv_preserved :
    (∀ (n : Nat) (t : ℚ), GBNSender.window_inv (gbnSenderInit n t)) ∧
    (∀ (s : GBNSenderState) (data : List Nat) (now : ℚ),
      GBNSender.window_inv s →
      GBNSender.window_inv (GBNSender.rdt_send s data now).2.1) ∧
    (∀ (s : GBNSenderState) (now : ℚ), GBNSender.window_inv s →
      GBNSender.window_inv (GBNSender.timeout_handler s now).1) ∧
    (∀ (s : GBNSenderState) (pkt : ParsedPacket) (now : ℚ),
      GBNSender.window_inv s →
      (¬ pkt.ptype = Packet.TYPE_ACK ∨ pkt.valid = false ∨
        (s.base ≤ pkt.seq + 1 ∧ pkt.seq + 1 ≤ s.nextseqnum)) →
      GBNSender.window_inv (GBNSender.ack_loop_step s pkt now)) := by
  refine ⟨?_, ?_, ?_, ?_⟩
  · intro n t
    refine ⟨Nat.le_refl 0, ?_, ?_⟩
    · show (0 : Nat) ≤ 0 + n
      omega
    · intro q
      show (assocLookup [] q).isSome ↔ ((0 : Nat) ≤ q ∧ q < 0)
      simp [assocLookup]
  · intro s data now h
    obtain ⟨h1, h2, h3⟩ := h
    by_cases hw : s.nextseqnum < s.base + s.N
    · rw [gbn_rdt_send_eq_of_room s data now hw]
      refine ⟨?_, ?_, ?_⟩
      · show s.base ≤ s.nextseqnum + 1
        omega
      · show s.nextseqnum + 1 ≤ s.base + s.N
        omega
      · intro q
        show (assocLookup (assocSet s.sndpkt s.nextseqnum data) q).isSome ↔
          (s.base ≤ q ∧ q < s.nextseqnum + 1)
        rw [assocLookup_assocSet]
        by_cases hq : q = s.nextseqnum
        · rw [if_pos hq]
          simp only [Option.isSome_some, true_iff]
          omega
        · rw [if_neg hq]
          rw [h3 q]
          omega
    · rw [gbn_rdt_send_eq_of_full s data now hw]
      exact ⟨h1, h2, h3⟩
  · intro s now h
    exact h
  · intro s pkt now h hr
    obtain ⟨h1, h2, h3⟩ := h
    rcases hr with hr | hr | hr
    · rw [gbn_ack_step_eq_of_invalid s pkt now (Or.inl hr)]
      exact ⟨h1, h2, h3⟩
    · rw [gbn_ack_step_eq_of_invalid s pkt now (Or.inr hr)]
      exact ⟨h1, h2, h3⟩
    · by_cases hty : pkt.ptype = Packet.TYPE_ACK
      · by_cases hv : pkt.valid = true
        · rw [gbn_ack_step_eq_of_valid s pkt now hty hv]
          obtain ⟨hr1, hr2⟩ := hr
          refine ⟨?_, ?_, ?_⟩
          · show pkt.seq + 1 ≤ s.nextseqnum
            omega
          · show s.nextseqnum ≤ pkt.seq + 1 + s.N
            omega
          · intro q
            show (assocLookup
                (s.sndpkt.filter (fun p => ¬ p.1 < pkt.seq + 1)) q).isSome ↔
              (pkt.seq + 1 ≤ q ∧ q < s.nextseqnum)
            rw [assocLookup_filter_ge]
            by_cases hq : q < pkt.seq + 1
            · rw [if_pos hq]
              simp only [Option.isSome_none, Bool.false_eq_true, false_iff]
              omega
            · rw [if_neg hq]
              rw [h3 q]
              omega
        · rw [gbn_ack_step_eq_of_invalid s pkt now
            (Or.inr (by simpa using hv))]
          exact ⟨h1, h2, h3⟩
      · rw [gbn_ack_step_eq_of_invalid s pkt now (Or.inl hty)]
        exact ⟨h1, h2, h3⟩

/-- Witness for the amended C2 theorem: the invariant holds after a send
and a matching in-window ACK from the initial state. -/
theorem gbn_window_inv_preserved_witness :
    GBNSender.window_inv
      (GBNSender.ack_loop_step
        (GBNSender.rdt_send (gbnSenderInit 5 2) [3, 4] 0).2.1
        ⟨Packet.TYPE_ACK, 0, [], true⟩ 1) := by
  have h0 := gbn_window_inv_preserved.1 5 2
  have h1 := gbn_window_inv_preserved.2.1 (gbnSenderInit 5 2) [3, 4] 0 h0
  exact gbn_window_inv_preserved.2.2.2
    (GBNSender.rdt_send (gbnSenderInit 5 2) [3, 4] 0).2.1
    ⟨Packet.TYPE_ACK, 0, [], true⟩ 1 h1
    (Or.inr (Or.inr (by constructor <;> decide)))

/-- C7: GBNSender.rdt_send with room in the window (nextseqnum strictly
below base + N) assigns sequence nextseqnum, transmits exactly one DATA
frame carrying it, buffers it under that sequence leaving the rest of
the buffer unchanged, starts the timer exactly when base = nextseqnum
held before incrementing, increments nextseqnum and returns success;
with the window full it returns failure and leaves the whole state
unchanged with nothing transmitted. -/
theorem gbn_rdt_send_window_behavior :
    ∀ (s : GBNSenderState) (data : List Nat) (now : ℚ),
    (s.nextseqnum < s.base + s.N →
      (GBNSender.rdt_send s data now).1 = true ∧
      (GBNSender.rdt_send s data now).2.2 =
        [⟨Packet.TYPE_DATA, s.nextseqnum, data, true⟩] ∧
      (GBNSender.rdt_send s data now).2.1.base = s.base ∧
      (GBNSender.rdt_send s data now).2.1.nextseqnum = s.nextseqnum + 1 ∧
      (GBNSender.rdt_send s data now).2.1.N = s.N ∧
      assocLookup (GBNSender.rdt_send s data now).2.1.sndpkt s.nextseqnum
        = some data ∧
      (∀ q : Nat, ¬ q = s.nextseqnum →
        assocLookup (GBNSender.rdt_send s data now).2.1.sndpkt q
          = assocLookup s.sndpkt q) ∧
      (GBNSender.rdt_send s data now).2.1.timer =
        (if s.base = s.nextseqnum then some (now + s.timeout_interval)
          else s.timer)) ∧
    (¬ s.nextseqnum < s.base + s.N →
      GBNSender.rdt_send s data now = (false, s, [])) := by
  intro s data now
  constructor
  · intro h
    rw [gbn_rdt_send_eq_of_room s data now h]
    refine ⟨rfl, rfl, rfl, rfl, rfl, ?_, ?_, rfl⟩
    · show assocLookup (assocSet s.sndpkt s.nextseqnum data) s.nextseqnum
        = some data
      rw [assocLookup_assocSet, if_pos rfl]
    · intro q hq
      show assocLookup (assocSet s.sndpkt s.nextseqnum data) q
        = assocLookup s.sndpkt q
      rw [assocLookup_assocSet, if_neg hq]
  · intro h
    exact gbn_rdt_send_eq_of_full s data now h

/-- Witness for the C7 theorem: a send with room succeeds and a send
against a full window is refused unchanged. -/
theorem gbn_rdt_send_window_behavior_witness :
    (GBNSender.rdt_send (gbnSenderInit 5 2) [1, 2, 3] 0).1 = true ∧
    GBNSender.rdt_send (⟨0, 5, 5, [], none, 2, 0, 0⟩ : GBNSenderState) [9] 0
      = (false, (⟨0, 5, 5, [], none, 2, 0, 0⟩ : GBNSenderState), []) :=
  ⟨((gbn_rdt_send_window_behavior (gbnSenderInit 5 2) [1, 2, 3] 0).1
      (by decide)).1,
   (gbn_rdt_send_window_behavior
      (⟨0, 5, 5, [], none, 2, 0, 0⟩ : GBNSenderState) [9] 0).2 (by decide)⟩

theorem gbn_rcv_eq_of_non_data (s : GBNReceiverState) (pkt : ParsedPacket)
    (h : ¬ pkt.ptype = Packet.TYPE_DATA) :
    GBNReceiver.rdt_rcv s pkt = (s, none, []) := by
  unfold GBNReceiver.rdt_rcv
  rw [if_pos h]

theorem gbn_rcv_eq_of_accept (s : GBNReceiverState) (pkt : ParsedPacket)
    (hty : pkt.ptype = Packet.TYPE_DATA) (hv : pkt.valid = true)
    (hsq : pkt.seq = s.expectedseqnum) :
    GBNReceiver.rdt_rcv s pkt =
      ({ s with
          expectedseqnum := s.expectedseqnum + 1
          sndpkt := GBNReceiver.make_pkt s.expectedseqnum
          messages := s.messages ++ [pkt.payload]
          received_count := s.received_count + 1 },
        some pkt.payload, [GBNReceiver.make_pkt s.expectedseqnum]) := by
  unfold GBNReceiver.rdt_rcv
  rw [if_neg (by simp [hty]), if_pos ⟨hv, hsq⟩]

theorem gbn_rcv_eq_of_reject (s : GBNReceiverState) (pkt : ParsedPacket)
    (hty : pkt.ptype = Packet.TYPE_DATA)
    (hbad : ¬ (pkt.valid = true ∧ pkt.seq = s.expectedseqnum)) :
    GBNReceiver.rdt_rcv s pkt =
      ((if pkt.valid = false
          then { s with corrupted_count := s.corrupted_count + 1 }
          else { s with out_of_order_count := s.out_of_order_count + 1 }),
        none, [s.sndpkt]) := by
  unfold GBNReceiver.rdt_rcv
  rw [if_neg (by simp [hty]), if_neg hbad]

theorem gbn_rcv_delivery_shape (s : GBNReceiverState) (pkt : ParsedPacket) :
    ((GBNReceiver.rdt_rcv s pkt).2.1 = none ∧
      (GBNReceiver.rdt_rcv s pkt).1.expectedseqnum = s.expectedseqnum) ∨
    ((GBNReceiver.rdt_rcv s pkt).2.1.isSome ∧
      (GBNReceiver.rdt_rcv s pkt).1.expectedseqnum = s.expectedseqnum + 1) := by
  by_cases hty : pkt.ptype = Packet.TYPE_DATA
  · by_cases hok : pkt.valid = true ∧ pkt.seq = s.expectedseqnum
    · right
      rw [gbn_rcv_eq_of_accept s pkt hty hok.1 hok.2]
      exact ⟨rfl, rfl⟩
    · left
      rw [gbn_rcv_eq_of_reject s pkt hty hok]
      refine ⟨rfl, ?_⟩
      by_cases hv : pkt.valid = false
      · rw [if_pos hv]
      · rw [if_neg hv]
  · left
    rw [gbn_rcv_eq_of_non_data s pkt hty]
    exact ⟨rfl, rfl⟩

theorem gbn_run_from_log (pkts : List ParsedPacket) :
    ∀ (s : GBNReceiverState) (log : List (Nat × List Nat)),
    log.map Prod.fst = List.range s.expectedseqnum →
    ((GBNReceiver.run_from s log pkts).2).map Prod.fst =
      List.range (GBNReceiver.run_from s log pkts).1.expectedseqnum := by
  induction pkts with
  | nil =>
    intro s log h
    exact h
  | cons pkt rest ih =>
    intro s log h
    rcases gbn_rcv_delivery_shape s pkt with ⟨hn, he⟩ | ⟨hs, he⟩
    · unfold GBNReceiver.run_from
      simp only [hn]
      exact ih (GBNReceiver.rdt_rcv s pkt).1 log (by rw [he]; exact h)
    · obtain ⟨d, hd⟩ := Option.isSome_iff_exists.mp hs
      unfold GBNReceiver.run_from
      simp only [hd]
      refine ih (GBNReceiver.rdt_rcv s pkt).1 (log ++ [(s.expectedseqnum, d)]) ?_
      rw [he, List.map_append, h, List.range_succ]
      rfl

/-- C8 fails on the code: GBNReceiver.rdt_rcv drops any frame whose
decoded type is not DATA without replying at all, so a corrupt frame
that decodes with type ACK — a corrupt received frame — produces no
resend of the stored ACK, contrary to the claim that every case other
than an in-order valid DATA frame re-sends the stored ACK. -/
theorem gbn_rcv_ignores_non_data_cex :
    (GBNReceiver.rdt_rcv gbnReceiverInit
        ⟨Packet.TYPE_ACK, 3, [], false⟩).2.2 = [] ∧
    ¬ (GBNReceiver.rdt_rcv gbnReceiverInit
        ⟨Packet.TYPE_ACK, 3, [], false⟩).2.2 = [gbnReceiverInit.sndpkt] ∧
    (GBNReceiver.rdt_rcv gbnReceiverInit
        ⟨Packet.TYPE_ACK, 3, [], false⟩).1 = gbnReceiverInit := by
  rw [gbn_rcv_eq_of_non_data gbnReceiverInit
    ⟨Packet.TYPE_ACK, 3, [], false⟩ (by decide)]
  refine ⟨rfl, ?_, rfl⟩
  decide

/-- C8 amended: frames whose decoded type is not DATA are ignored
outright — nothing delivered, nothing sent, state unchanged. Among DATA
frames: an uncorrupted one carrying the expected sequence number is
delivered upward, answered with a freshly built ACK(expectedseqnum)
which is also stored, and expectedseqnum is incremented; a corrupt one,
or a well-formed one with any other sequence number, triggers a resend
of the previously stored ACK frame unchanged with nothing delivered and
expectedseqnum, stored ACK and delivered messages unchanged. Over any
sequence of received frames, deliveries occur exactly once per sequence
number and in strictly increasing sequence order starting at 0. -/
theorem gbn_rcv_behavior_amended :
    (∀ (s : GBNReceiverState) (pkt : ParsedPacket),
      ¬ pkt.ptype = Packet.TYPE_DATA →
      GBNReceiver.rdt_rcv s pkt = (s, none, [])) ∧
    (∀ (s : GBNReceiverState) (pkt : ParsedPacket),
      pkt.ptype = Packet.TYPE_DATA → pkt.valid = true →
      pkt.seq = s.expectedseqnum →
      (GBNReceiver.rdt_rcv s pkt).2.1 = some pkt.payload ∧
      (GBNReceiver.rdt_rcv s pkt).2.2 = [GBNReceiver.make_pkt s.expectedseqnum] ∧
      (GBNReceiver.rdt_rcv s pkt).1.expectedseqnum = s.expectedseqnum + 1 ∧
      (GBNReceiver.rdt_rcv s pkt).1.sndpkt = GBNReceiver.make_pkt s.expectedseqnum ∧
      (GBNReceiver.rdt_rcv s pkt).1.messages = s.messages ++ [pkt.payload]) ∧
    (∀ (s : GBNReceiverState) (pkt : ParsedPacket),
      pkt.ptype = Packet.TYPE_DATA →
      (pkt.valid = false ∨ ¬ pkt.seq = s.expectedseqnum) →
      (GBNReceiver.rdt_rcv s pkt).2.1 = none ∧
      (GBNReceiver.rdt_rcv s pkt).2.2 = [s.sndpkt] ∧
      (GBNReceiver.rdt_rcv s pkt).1.expectedseqnum = s.expectedseqnum ∧
      (GBNReceiver.rdt_rcv s pkt).1.sndpkt = s.sndpkt ∧
      (GBNReceiver.rdt_rcv s pkt).1.messages = s.messages) ∧
    (∀ pkts : List ParsedPacket,
      ((GBNReceiver.run pkts).2).map Prod.fst =
        List.range (GBNReceiver.run pkts).1.expectedseqnum) := by
  refine ⟨?_, ?_, ?_, ?_⟩
  · intro s pkt h
    exact gbn_rcv_eq_of_non_data s pkt h
  · intro s pkt hty hv hsq
    rw [gbn_rcv_eq_of_accept s pkt hty hv hsq]
    exact ⟨rfl, rfl, rfl, rfl, rfl⟩
  · intro s pkt hty hbad
    have hbad2 : ¬ (pkt.valid = true ∧ pkt.seq = s.expectedseqnum) := by
      rcases hbad with hb | hb
      · intro hc
        rw [hb] at hc
        exact absurd hc.1 (by decide)
      · intro hc
        exact hb hc.2
    rw [gbn_rcv_eq_of_reject s pkt hty hbad2]
    refine ⟨rfl, rfl, ?_, ?_, ?_⟩ <;>
      · by_cases hv : pkt.valid = false
        · rw [if_pos hv]
        · rw [if_neg hv]
  · intro pkts
    exact gbn_run_from_log pkts gbnReceiverInit [] rfl

/-- Witness for the amended C8 theorem: an in-order valid DATA frame is
delivered and acknowledged, and an out-of-order one is answered with
the stored ACK. -/
theorem gbn_rcv_behavior_amended_witness :
    (GBNReceiver.rdt_rcv gbnReceiverInit
      ⟨Packet.TYPE_DATA, 0, [5], true⟩).2.1 = some [5] ∧
    (GBNReceiver.rdt_rcv gbnReceiverInit
      ⟨Packet.TYPE_DATA, 7, [5], true⟩).2.2 = [gbnReceiverInit.sndpkt] ∧
    GBNReceiver.rdt_rcv gbnReceiverInit ⟨Packet.TYPE_NAK, 0, [], true⟩
      = (gbnReceiverInit, none, []) :=
  ⟨(gbn_rcv_behavior_amended.2.1 gbnReceiverInit
      ⟨Packet.TYPE_DATA, 0, [5], true⟩ rfl rfl rfl).1,
   (gbn_rcv_behavior_amended.2.2.1 gbnReceiverInit
      ⟨Packet.TYPE_DATA, 7, [5], true⟩ rfl (Or.inr (by decide))).2.1,
   gbn_rcv_behavior_amended.1 gbnReceiverInit
      ⟨Packet.TYPE_NAK, 0, [], true⟩ (by decide)⟩

/-- C9: in the rdt3.0 sender ACK-wait loop, a corrupt reply or an ACK
with the wrong sequence number is silently discarded — the state, the
outstanding frame and the timer are untouched and nothing is sent — the
timer is stopped only by a correctly-sequenced uncorrupted ACK, upon
which the FSM alternates to the opposite wait-for-call state, the
outstanding frame is cleared and success is returned; moreover this
handler never transmits, and the timeout handler restarts, never stops,
the timer. -/
theorem rdt30_wait_for_ack_behavior :
    (∀ (s : RDT30SenderState) (e : Nat) (pkt : ParsedPacket),
      pkt.valid = false ∨ (pkt.ptype = Packet.TYPE_ACK ∧ ¬ pkt.seq = e) →
      RDT30Sender.wait_for_ack_step s e pkt = (s, none, [])) ∧
    (∀ (s : RDT30SenderState) (e : Nat) (pkt : ParsedPacket),
      pkt.valid = true → pkt.ptype = Packet.TYPE_ACK → pkt.seq = e →
      RDT30Sender.wait_for_ack_step s e pkt =
        ({ s with
            timer := none
            fsm := if e = 0 then RDT30FSM.wait_call_1 else RDT30FSM.wait_call_0
            sndpkt := none },
          some true, [])) ∧
    (∀ (s : RDT30SenderState) (e : Nat) (pkt : ParsedPacket),
      ¬ (RDT30Sender.wait_for_ack_step s e pkt).1.timer = s.timer →
      pkt.valid = true ∧ pkt.ptype = Packet.TYPE_ACK ∧ pkt.seq = e) ∧
    (∀ (s : RDT30SenderState) (e : Nat) (pkt : ParsedPacket),
      (RDT30Sender.wait_for_ack_step s e pkt).2.2 = []) ∧
    (∀ (s : RDT30SenderState) (now : ℚ),
      ¬ (RDT30Sender.timeout_handler s now).1.timer = none) := by
  have hdisc : ∀ (s : RDT30SenderState) (e : Nat) (pkt : ParsedPacket),
      pkt.valid = false ∨ (pkt.ptype = Packet.TYPE_ACK ∧ ¬ pkt.seq = e) →
      RDT30Sender.wait_for_ack_step s e pkt = (s, none, []) := by
    intro s e pkt h
    unfold RDT30Sender.wait_for_ack_step
    rcases h with h | h
    · rw [if_pos (Or.inl h)]
    · by_cases hv : pkt.valid = true
      · rw [if_pos (Or.inr ⟨hv, h.1, h.2⟩)]
      · rw [if_pos (Or.inl (by simpa using hv))]
  have hok : ∀ (s : RDT30SenderState) (e : Nat) (pkt : ParsedPacket),
      pkt.valid = true → pkt.ptype = Packet.TYPE_ACK → pkt.seq = e →
      RDT30Sender.wait_for_ack_step s e pkt =
        ({ s with
            timer := none
            fsm := if e = 0 then RDT30FSM.wait_call_1 else RDT30FSM.wait_call_0
            sndpkt := none },
          some true, []) := by
    intro s e pkt hv hty hsq
    unfold RDT30Sender.wait_for_ack_step
    rw [if_neg ?_, if_pos ⟨hv, hty, hsq⟩]
    intro hc
    rcases hc with hc | hc
    · rw [hv] at hc
      exact absurd hc (by decide)
    · exact hc.2.2 hsq
  refine ⟨hdisc, hok, ?_, ?_, ?_⟩
  · intro s e pkt h
    by_cases hv : pkt.valid = true
    · by_cases hty : pkt.ptype = Packet.TYPE_ACK
      · by_cases hsq : pkt.seq = e
        · exact ⟨hv, hty, hsq⟩
        · exact absurd (by rw [hdisc s e pkt (Or.inr ⟨hty, hsq⟩)]) h
      · have : RDT30Sender.wait_for_ack_step s e pkt = (s, none, []) := by
          unfold RDT30Sender.wait_for_ack_step
          rw [if_neg ?_, if_neg ?_]
          · intro hc
            exact hty hc.2.1
          · intro hc
            rcases hc with hc | hc
            · rw [hv] at hc
              exact absurd hc (by decide)
            · exact hty hc.2.1
        exact absurd (by rw [this]) h
    · exact absurd (by rw [hdisc s e pkt (Or.inl (by simpa using hv))]) h
  · intro s e pkt
    unfold RDT30Sender.wait_for_ack_step
    by_cases h1 : pkt.valid = false ∨
        (pkt.valid = true ∧ pkt.ptype = Packet.TYPE_ACK ∧ ¬ pkt.seq = e)
    · rw [if_pos h1]
    · rw [if_neg h1]
      by_cases h2 : pkt.valid = true ∧ pkt.ptype = Packet.TYPE_ACK ∧
          pkt.seq = e
      · rw [if_pos h2]
      · rw [if_neg h2]
  · intro s now
    intro hc
    exact absurd hc (by simp [RDT30Sender.timeout_handler])

/-- Concrete rdt3.0 sender state waiting for ACK 0 with its timer
running, used by the C9 witness. -/
def rdt30C9State : RDT30SenderState :=
  ⟨RDT30FSM.wait_ack_0, some ⟨Packet.TYPE_DATA, 0, [1], true⟩, some 5, 2, 0⟩

/-- Witness for the C9 theorem: a wrong-sequence ACK is discarded
without touching the state, and the correct ACK stops the timer and
alternates the FSM. -/
theorem rdt30_wait_for_ack_behavior_witness :
    RDT30Sender.wait_for_ack_step rdt30C9State 0 ⟨Packet.TYPE_ACK, 1, [], true⟩
      = (rdt30C9State, none, []) ∧
    RDT30Sender.wait_for_ack_step rdt30C9State 0 ⟨Packet.TYPE_ACK, 0, [], true⟩
      = ({ rdt30C9State with
            timer := none
            fsm := RDT30FSM.wait_call_1
            sndpkt := none },
          some true, []) :=
  ⟨rdt30_wait_for_ack_behavior.1 rdt30C9State 0 ⟨Packet.TYPE_ACK, 1, [], true⟩
      (Or.inr ⟨rfl, by decide⟩),
   rdt30_wait_for_ack_behavior.2.1 rdt30C9State 0
      ⟨Packet.TYPE_ACK, 0, [], true⟩ rfl rfl rfl⟩

/-- Lookup in an Int-keyed association list (Python dict read). -/
def IntMap.lookup {α : Type} : List (Int × α) → Int → Option α
  | [], _ => none
  | p :: rest, k => if p.1 = k then some p.2 else IntMap.lookup rest k

/-- Update of an Int-keyed association list (Python dict assignment). -/
def IntMap.set {α : Type} (l : List (Int × α)) (k : Int) (v : α) :
    List (Int × α) := (k, v) :: l.filter (fun p => ¬ p.1 = k)

/-- The set of active per-segment timers, keyed by sequence number;
_start_timer cancels any previous timer for the key, so insertion is
set-like. -/
def timerSet (l : List Int) (k : Int) : List Int :=
  k :: l.filter (fun t => ¬ t = k)

/-- Largest key of send_times strictly below a: the first hit of the
descending sorted-key scan in SimpleTCPSocket._handle_ack. -/
def maxKeyBelow : List (Int × ℚ) → Int → Option Int
  | [], _ => none
  | p :: rest, a =>
    if p.1 < a then
      match maxKeyBelow rest a with
      | none => some p.1
      | some m => some (max m p.1)
    else maxKeyBelow rest a

/-- Ascending insertion by key, for the sorted(pending) retransmission
order of SimpleTCPSocket._timeout_handler. -/
def insertByKey (p : Int × List Nat) :
    List (Int × List Nat) → List (Int × List Nat)
  | [] => [p]
  | q :: rest => if p.1 ≤ q.1 then p :: q :: rest else q :: insertByKey p rest

/-- Insertion sort by key, ascending. -/
def sortByKey : List (Int × List Nat) → List (Int × List Nat)
  | [] => []
  | p :: rest => insertByKey p (sortByKey rest)

/-- The connection states of SimpleTCPSocket (fase3/tcp_socket.py). -/
inductive ConnState
  | CLOSED
  | LISTEN
  | SYN_SENT
  | SYN_RCVD
  | ESTABLISHED
  | FIN_WAIT_1
  | FIN_WAIT_2
  | CLOSE_WAIT
  | CLOSING
  | TIME_WAIT
  | LAST_ACK
deriving DecidableEq

/-- SimpleTCPSocket.MAX_SEGMENT_SIZE. -/
def MAX_SEGMENT_SIZE : Nat := 1024

/-- State of SimpleTCPSocket: connection state, sequence bookkeeping
(Python ints, hence Int), buffers as deques of byte chunks, flow and
RTT estimator state, the per-segment timer set, the send-timestamp and
unacknowledged-segment dictionaries, and statistics. -/
structure TCPState where
  st : ConnState
  seq_num : Int
  ack_num : Int
  send_base : Int
  send_buffer : List (List Nat)
  recv_buffer : List (List Nat)
  send_window : Int
  recv_window : Int
  estimated_rtt : ℚ
  dev_rtt : ℚ
  timeout_interval : ℚ
  timers : List Int
  send_times : List (Int × ℚ)
  unacked_segments : List (Int × List Nat)
  retransmissions : Nat
deriving DecidableEq

/-- SimpleTCPSocket._calculate_timeout: estimated_rtt + 4 * dev_rtt. -/
def SimpleTCPSocket.calculate_timeout (est dev : ℚ) : ℚ := est + 4 * dev

/-- SimpleTCPSocket._update_rtt: exponentially-weighted update of the
RTT estimate and deviation, then the timeout interval is recomputed
from them — the code applies no floor or ceiling. -/
def SimpleTCPSocket.update_rtt (s : TCPState) (sample_rtt : ℚ) : TCPState :=
  let est1 := 0.875 * s.estimated_rtt + 0.125 * sample_rtt
  let dev1 := 0.75 * s.dev_rtt + 0.25 * |sample_rtt - est1|
  { s with
      estimated_rtt := est1
      dev_rtt := dev1
      timeout_interval := SimpleTCPSocket.calculate_timeout est1 dev1 }

/-- Loop body of SimpleTCPSocket._send_data: while the send buffer is
nonempty and the available window is positive, pop a chunk, slice a
segment of at most MAX_SEGMENT_SIZE and the available window, transmit
it, record it in the unacknowledged table and the send-timestamp table,
start its timer, advance seq_num, shrink the available window, and push
back any chunk remainder. The fuel argument strictly exceeds the loop
measure at the entry point so it never runs out. -/
def SimpleTCPSocket.send_data_loop :
    Nat → TCPState → Int → ℚ → List (Int × List Nat) →
      TCPState × List (Int × List Nat)
  | 0, s, _, _, out => (s, out)
  | fuel + 1, s, available, now, out =>
    match s.send_buffer with
    | [] => (s, out)
    | data :: rest =>
      if available ≤ 0 then (s, out)
      else
        let segment_size := min (min data.length MAX_SEGMENT_SIZE)
          available.toNat
        let segment_data := data.take segment_size
        let current_seq := s.seq_num
        let s1 := { s with
          send_buffer := if segment_size < data.length
            then data.drop segment_size :: rest else rest
          unacked_segments :=
            IntMap.set s.unacked_segments current_seq segment_data
          send_times := IntMap.set s.send_times current_seq now
          timers := timerSet s.timers current_seq
          seq_num := s.seq_num + segment_data.length }
        SimpleTCPSocket.send_data_loop fuel s1
          (available - segment_data.length) now
          (out ++ [(current_seq, segment_data)])

/-- SimpleTCPSocket._send_data: compute the available window as
send_window minus the outstanding bytes and run the sending loop.
Returns the new state and the transmitted segments. -/
def SimpleTCPSocket.send_data (s : TCPState) (now : ℚ) :
    TCPState × List (Int × List Nat) :=
  let available := s.send_window - (s.seq_num - s.send_base)
  SimpleTCPSocket.send_data_loop (s.send_buffer.length + available.toNat + 1)
    s available now []

/-- RTT phase of SimpleTCPSocket._handle_ack for an ACK above send_base:
scan the send-timestamp table downward for the largest sequence below
the ACK number; if one exists, take the sample as now minus its stored
timestamp, feed it to the estimator when positive, and prune every
timestamp below the ACK number; if none exists, nothing changes. -/
def SimpleTCPSocket.handle_ack_rtt (s : TCPState) (ack_num : Int) (now : ℚ) :
    TCPState :=
  match maxKeyBelow s.send_times ack_num with
  | none => s
  | some seqk =>
    let sample_rtt := now - ((IntMap.lookup s.send_times seqk).getD 0)
    let s0 := if 0 < sample_rtt then SimpleTCPSocket.update_rtt s sample_rtt
      else s
    { s0 with
        send_times := s0.send_times.filter (fun p => ¬ p.1 < ack_num) }

/-- SimpleTCPSocket._handle_ack on a received cumulative ACK number. In
SYN_RCVD an ACK at least seq_num + 1 completes the handshake. Otherwise
an ACK above send_base runs the RTT phase, then advances send_base,
cancels the timers below the ACK number, evicts the fully covered
unacknowledged segments, and tries to send more data; any other ACK
does nothing. Returns the new state and the transmitted segments. -/
def SimpleTCPSocket.handle_ack (s : TCPState) (ack_num : Int) (now : ℚ) :
    TCPState × List (Int × List Nat) :=
  if s.st = ConnState.SYN_RCVD ∧ s.seq_num + 1 ≤ ack_num then
    ({ s with
        st := ConnState.ESTABLISHED
        seq_num := ack_num
        send_base := ack_num }, [])
  else if s.send_base < ack_num then
    let s1 := SimpleTCPSocket.handle_ack_rtt s ack_num now
    let s2 := { s1 with
        send_base := ack_num
        timers := s1.timers.filter (fun t => ¬ t < ack_num)
        unacked_segments := s1.unacked_segments.filter
          (fun p => ¬ (p.1 + (p.2.length : Int) ≤ ack_num)) }
    SimpleTCPSocket.send_data s2 now
  else
    (s, [])

/-- Fold SimpleTCPSocket._handle_ack over a list of arriving ACK
numbers. -/
def SimpleTCPSocket.process_acks (now : ℚ) :
    TCPState → List Int → TCPState
  | s, [] => s
  | s, a :: rest =>
    SimpleTCPSocket.process_acks now (SimpleTCPSocket.handle_ack s a now).1 rest

/-- SimpleTCPSocket._timeout_handler for the segment with the given
sequence number: count one retransmission, collect the unacknowledged
segments from that sequence on, and — unless there are none — resend
them in ascending order, refreshing each send timestamp to the present
and restarting each timer. Returns the new state and the retransmitted
segments. -/
def SimpleTCPSocket.timeout_handler (s : TCPState) (seq_num : Int) (now : ℚ) :
    TCPState × List (Int × List Nat) :=
  let s0 := { s with retransmissions := s.retransmissions + 1 }
  let pending := s.unacked_segments.filter (fun p => seq_num ≤ p.1)
  if pending = [] then (s0, [])
  else
    let sorted := sortByKey pending
    (sorted.foldl (fun acc p =>
        { acc with
            send_times := IntMap.set acc.send_times p.1 now
            timers := timerSet acc.timers p.1 }) s0,
      sorted)

/-- Wait loop of SimpleTCPSocket.connect after the SYN is sent: the
thread polls the connection state every 0.1 s (poll k is the state seen
at the k-th check) while it stays SYN_SENT, and raises once the elapsed
time exceeds 10 s — at the 101st poll — setting the state to CLOSED;
when the state leaves SYN_SENT the call succeeds exactly when the state
is ESTABLISHED. The remaining argument counts the polls left before the
10 s deadline; the result carries the outcome and the exit poll index. -/
def SimpleTCPSocket.connect_wait_aux (poll : Nat → ConnState) :
    Nat → Nat → Except Unit Unit × Nat
  | 0, k =>
    if ¬ poll k = ConnState.SYN_SENT then
      ((if poll k = ConnState.ESTABLISHED then Except.ok ()
        else Except.error ()), k)
    else (Except.error (), k)
  | r + 1, k =>
    if ¬ poll k = ConnState.SYN_SENT then
      ((if poll k = ConnState.ESTABLISHED then Except.ok ()
        else Except.error ()), k)
    else SimpleTCPSocket.connect_wait_aux poll r (k + 1)

/-- SimpleTCPSocket.connect wait phase from its first poll. -/
def SimpleTCPSocket.connect_wait (poll : Nat → ConnState) :
    Except Unit Unit × Nat :=
  SimpleTCPSocket.connect_wait_aux poll 101 0

/-- First wait loop of SimpleTCPSocket.accept: the thread polls the
connection state every 0.1 s while it stays LISTEN, with no deadline of
any kind; the fuel argument only bounds the observation window — the
loop itself never exits while every poll returns LISTEN. Returns the
poll index at which the state left LISTEN, or none when that never
happens within the observation window. -/
def SimpleTCPSocket.accept_wait_syn (poll : Nat → ConnState) :
    Nat → Nat → Option Nat
  | 0, _ => none
  | fuel + 1, k =>
    if poll k = ConnState.LISTEN then
      SimpleTCPSocket.accept_wait_syn poll fuel (k + 1)
    else some k

/-- Second wait phase of SimpleTCPSocket.accept: while the state stays
SYN_RCVD the thread polls every 0.1 s and raises once the elapsed time
exceeds 10 s (the 101st poll); when the state leaves SYN_RCVD the call
succeeds exactly when the state is ESTABLISHED. -/
def SimpleTCPSocket.accept_wait_ack_aux (poll : Nat → ConnState) :
    Nat → Nat → Except Unit Unit × Nat
  | 0, k =>
    if ¬ poll k = ConnState.SYN_RCVD then
      ((if poll k = ConnState.ESTABLISHED then Except.ok ()
        else Except.error ()), k)
    else (Except.error (), k)
  | r + 1, k =>
    if ¬ poll k = ConnState.SYN_RCVD then
      ((if poll k = ConnState.ESTABLISHED then Except.ok ()
        else Except.error ()), k)
    else SimpleTCPSocket.accept_wait_ack_aux poll r (k + 1)

/-- SimpleTCPSocket.accept second wait phase from its first poll. -/
def SimpleTCPSocket.accept_wait_ack (poll : Nat → ConnState) :
    Except Unit Unit × Nat :=
  SimpleTCPSocket.accept_wait_ack_aux poll 101 0

/-- Drain loop of SimpleTCPSocket.recv: pop chunks from the receive
buffer while it is nonempty and fewer than buffer_size bytes have been
collected; a chunk larger than the remaining need is split, its tail
pushed back. Returns the collected bytes and the remaining buffer. -/
def SimpleTCPSocket.drain_loop (buffer_size : Nat) :
    List (List Nat) → Nat → List Nat → List Nat × List (List Nat)
  | [], _, acc => (acc, [])
  | chunk :: rest, total, acc =>
    if total < buffer_size then
      let needed := buffer_size - total
      if chunk.length ≤ needed then
        SimpleTCPSocket.drain_loop buffer_size rest (total + chunk.length)
          (acc ++ chunk)
      else
        (acc ++ chunk.take needed, chunk.drop needed :: rest)
    else (acc, chunk :: rest)

/-- Polling loop of SimpleTCPSocket.recv: bufAt k is the receive-buffer
content seen at the k-th 0.1 s poll; a nonempty buffer is drained and
returned at once, and after 5 s — the 51st poll — the call returns
empty bytes. Returns the data, the remaining buffer and the exit poll
index. -/
def SimpleTCPSocket.recv_wait_aux (bufAt : Nat → List (List Nat))
    (buffer_size : Nat) :
    Nat → Nat → List Nat × List (List Nat) × Nat
  | 0, k =>
    if ¬ bufAt k = [] then
      let r := SimpleTCPSocket.drain_loop buffer_size (bufAt k) 0 []
      (r.1, r.2, k)
    else ([], bufAt k, k)
  | r + 1, k =>
    if ¬ bufAt k = [] then
      let d := SimpleTCPSocket.drain_loop buffer_size (bufAt k) 0 []
      (d.1, d.2, k)
    else SimpleTCPSocket.recv_wait_aux bufAt buffer_size r (k + 1)

/-- SimpleTCPSocket.recv: a socket neither ESTABLISHED nor CLOSE_WAIT
returns empty bytes at once, touching nothing; otherwise the polling
loop runs with its 5 s bound. -/
def SimpleTCPSocket.recv (st : ConnState) (bufAt : Nat → List (List Nat))
    (buffer_size : Nat) : List Nat × List (List Nat) × Nat :=
  if ¬ st = ConnState.ESTABLISHED ∧ ¬ st = ConnState.CLOSE_WAIT then
    ([], bufAt 0, 0)
  else
    SimpleTCPSocket.recv_wait_aux bufAt buffer_size 51 0

/-- Follows the wording of claim C4 and the spec, for comparison with
the implementation: the earliest outstanding segment that is fully
covered by the cumulative ACK number a — the least sequence q in the
unacknowledged table with q plus its payload length at most a. -/
def specEarliestCovered (s : TCPState) (a : Int) : Option Int :=
  ((s.unacked_segments.filter
    (fun p => p.1 + (p.2.length : Int) ≤ a)).map Prod.fst).min?

/-- Follows the wording of claim C4 and the spec, for comparison with
the implementation: the estimated RTT that one estimator update would
produce if the sample were taken from the send timestamp of the
earliest outstanding segment fully covered by a. -/
def specEstimatedAfterEarliest (s : TCPState) (a : Int) (now : ℚ) : ℚ :=
  match specEarliestCovered s a with
  | none => s.estimated_rtt
  | some q =>
    match IntMap.lookup s.send_times q with
    | none => s.estimated_rtt
    | some t => 0.875 * s.estimated_rtt + 0.125 * (now - t)

theorem mem_of_mem_timerSet {l : List Int} {k t : Int}
    (h : t ∈ timerSet l k) : t = k ∨ t ∈ l := by
  rcases List.mem_cons.mp h with h | h
  · exact Or.inl h
  · exact Or.inr (List.mem_of_mem_filter h)

theorem mem_of_mem_IntMapSet {α : Type} {l : List (Int × α)} {k : Int}
    {v : α} {p : Int × α} (h : p ∈ IntMap.set l k v) :
    p = (k, v) ∨ p ∈ l := by
  rcases List.mem_cons.mp h with h | h
  · exact Or.inl h
  · exact Or.inr (List.mem_of_mem_filter h)

theorem IntMap.lookup_filter_ne {α : Type} (l : List (Int × α)) (k q : Int)
    (h : ¬ q = k) :
    IntMap.lookup (l.filter (fun p => ¬ p.1 = k)) q = IntMap.lookup l q := by
  induction l with
  | nil => rfl
  | cons p rest ih =>
    by_cases hpk : p.1 = k
    · rw [List.filter_cons, if_neg (by simp [hpk])]
      rw [ih]
      have hpq : ¬ p.1 = q := by
        intro hc
        exact h (by rw [← hc, hpk])
      simp [IntMap.lookup, hpq]
    · rw [List.filter_cons, if_pos (by simp [hpk])]
      by_cases hpq : p.1 = q
      · simp [IntMap.lookup, hpq]
      · simp only [IntMap.lookup, if_neg hpq]
        exact ih

theorem IntMap.lookup_set {α : Type} (l : List (Int × α)) (k : Int) (v : α)
    (q : Int) :
    IntMap.lookup (IntMap.set l k v) q =
      if q = k then some v else IntMap.lookup l q := by
  unfold IntMap.set
  by_cases h : q = k
  · simp [IntMap.lookup, h]
  · rw [if_neg h]
    simp only [IntMap.lookup, if_neg (fun hc : k = q => h hc.symm)]
    exact IntMap.lookup_filter_ne l k q h

theorem maxKeyBelow_lt (a : Int) :
    ∀ (l : List (Int × ℚ)) (m : Int), maxKeyBelow l a = some m → m < a := by
  intro l
  induction l with
  | nil =>
    intro m h
    exact absurd h (by simp [maxKeyBelow])
  | cons p rest ih =>
    intro m h
    unfold maxKeyBelow at h
    by_cases hp : p.1 < a
    · rw [if_pos hp] at h
      cases hr : maxKeyBelow rest a with
      | none =>
        rw [hr] at h
        simp only [Option.some.injEq] at h
        omega
      | some m0 =>
        rw [hr] at h
        simp only [Option.some.injEq] at h
        have := ih m0 hr
        have : m = max m0 p.1 := h.symm
        have := max_lt (ih m0 hr) hp
        omega
    · rw [if_neg hp] at h
      exact ih m h

theorem maxKeyBelow_none_of (a : Int) :
    ∀ (l : List (Int × ℚ)), maxKeyBelow l a = none →
    ∀ p ∈ l, ¬ p.1 < a := by
  intro l
  induction l with
  | nil =>
    intro h p hp
    exact absurd hp (by simp)
  | cons q rest ih =>
    intro h p hp
    unfold maxKeyBelow at h
    by_cases hq : q.1 < a
    · rw [if_pos hq] at h
      cases hr : maxKeyBelow rest a with
      | none => rw [hr] at h; exact absurd h (by simp)
      | some m0 => rw [hr] at h; exact absurd h (by simp)
    · rw [if_neg hq] at h
      rcases List.mem_cons.mp hp with hp | hp
      · subst hp
        exact hq
      · exact ih h p hp

theorem maxKeyBelow_ge (a : Int) :
    ∀ (l : List (Int × ℚ)) (m : Int), maxKeyBelow l a = some m →
    ∀ p ∈ l, p.1 < a → p.1 ≤ m := by
  intro l
  induction l with
  | nil =>
    intro m h
    intro p hp
    exact absurd hp (by simp)
  | cons q rest ih =>
    intro m h p hp hpa
    unfold maxKeyBelow at h
    rcases List.mem_cons.mp hp with hp | hp
    · subst hp
      rw [if_pos hpa] at h
      cases hr : maxKeyBelow rest a with
      | none =>
        rw [hr] at h
        simp only [Option.some.injEq] at h
        omega
      | some m0 =>
        rw [hr] at h
        simp only [Option.some.injEq] at h
        have hle := le_max_right m0 p.1
        omega
    · by_cases hq : q.1 < a
      · rw [if_pos hq] at h
        cases hr : maxKeyBelow rest a with
        | none =>
          exact absurd (maxKeyBelow_none_of a rest hr p hp) (by simp [hpa])
        | some m0 =>
          rw [hr] at h
          simp only [Option.some.injEq] at h
          have := ih m0 hr p hp hpa
          have hle := le_max_left m0 q.1
          omega
      · rw [if_neg hq] at h
        exact ih m h p hp hpa

theorem send_data_loop_preserves (now : ℚ) :
    ∀ (fuel : Nat) (s : TCPState) (avail : Int) (out : List (Int × List Nat)),
    (SimpleTCPSocket.send_data_loop fuel s avail now out).1.st = s.st ∧
    (SimpleTCPSocket.send_data_loop fuel s avail now out).1.send_base
      = s.send_base ∧
    (SimpleTCPSocket.send_data_loop fuel s avail now out).1.estimated_rtt
      = s.estimated_rtt ∧
    (SimpleTCPSocket.send_data_loop fuel s avail now out).1.dev_rtt
      = s.dev_rtt ∧
    (SimpleTCPSocket.send_data_loop fuel s avail now out).1.timeout_interval
      = s.timeout_interval := by
  intro fuel
  induction fuel with
  | zero =>
    intro s avail out
    exact ⟨rfl, rfl, rfl, rfl, rfl⟩
  | succ n ih =>
    intro s avail out
    simp only [SimpleTCPSocket.send_data_loop]
    cases hb : s.send_buffer with
    | nil => exact ⟨rfl, rfl, rfl, rfl, rfl⟩
    | cons data rest =>
      dsimp only
      by_cases ha : avail ≤ 0
      · rw [if_pos ha]
        exact ⟨rfl, rfl, rfl, rfl, rfl⟩
      · rw [if_neg ha]
        exact ih _ _ _

theorem send_data_loop_keys (now : ℚ) :
    ∀ (fuel : Nat) (s : TCPState) (avail : Int) (out : List (Int × List Nat)),
    (∀ c ∈ s.send_buffer, ¬ c = []) →
    (∀ t ∈ (SimpleTCPSocket.send_data_loop fuel s avail now out).1.timers,
      t ∈ s.timers ∨ s.seq_num ≤ t) ∧
    (∀ p ∈ (SimpleTCPSocket.send_data_loop fuel s avail now
        out).1.unacked_segments,
      p ∈ s.unacked_segments ∨ (s.seq_num ≤ p.1 ∧ ¬ p.2 = [])) := by
  intro fuel
  induction fuel with
  | zero =>
    intro s avail out hne
    exact ⟨fun t ht => Or.inl ht, fun p hp => Or.inl hp⟩
  | succ n ih =>
    intro s avail out hne
    simp only [SimpleTCPSocket.send_data_loop]
    cases hb : s.send_buffer with
    | nil => exact ⟨fun t ht => Or.inl ht, fun p hp => Or.inl hp⟩
    | cons data rest =>
      dsimp only
      by_cases ha : avail ≤ 0
      · rw [if_pos ha]
        exact ⟨fun t ht => Or.inl ht, fun p hp => Or.inl hp⟩
      · rw [if_neg ha]
        have hdata : ¬ data = [] := by
          refine hne data ?_
          rw [hb]
          exact List.mem_cons_self data rest
        have hlen : 0 < data.length := List.length_pos.mpr hdata
        have havail : 0 < avail.toNat := by omega
        have hsz : 0 < min (min data.length MAX_SEGMENT_SIZE) avail.toNat := by
          unfold MAX_SEGMENT_SIZE
          omega
        have hrest : ∀ c ∈ rest, ¬ c = [] := by
          intro c hc
          refine hne c ?_
          rw [hb]
          exact List.mem_cons_of_mem data hc
        have hne1 : ∀ c ∈ (if min (min data.length MAX_SEGMENT_SIZE)
              avail.toNat < data.length
            then data.drop (min (min data.length MAX_SEGMENT_SIZE)
              avail.toNat) :: rest
            else rest), ¬ c = [] := by
          by_cases hlt : min (min data.length MAX_SEGMENT_SIZE)
              avail.toNat < data.length
          · rw [if_pos hlt]
            intro c hc
            rcases List.mem_cons.mp hc with hc | hc
            · subst hc
              intro hnil
              have hl := congrArg List.length hnil
              rw [List.length_drop] at hl
              simp only [List.length_nil] at hl
              omega
            · exact hrest c hc
          · rw [if_neg hlt]
            exact hrest
        have hseg : ¬ data.take (min (min data.length MAX_SEGMENT_SIZE)
            avail.toNat) = [] := by
          intro hnil
          have hl := congrArg List.length hnil
          rw [List.length_take] at hl
          simp only [List.length_nil] at hl
          omega
        constructor
        · intro t ht
          rcases (ih _ _ _ hne1).1 t ht with h | h
          · rcases mem_of_mem_timerSet h with h | h
            · subst h
              exact Or.inr (le_refl _)
            · exact Or.inl h
          · refine Or.inr (le_trans ?_ h)
            show s.seq_num ≤ s.seq_num + ((data.take (min (min data.length
                MAX_SEGMENT_SIZE) avail.toNat)).length : Int)
            have hnn : (0 : Int) ≤ ((data.take (min (min data.length
                MAX_SEGMENT_SIZE) avail.toNat)).length : Int) := Int.ofNat_nonneg _
            omega
        · intro p hp
          rcases (ih _ _ _ hne1).2 p hp with h | h
          · rcases mem_of_mem_IntMapSet h with h | h
            · subst h
              exact Or.inr ⟨le_refl _, hseg⟩
            · exact Or.inl h
          · refine Or.inr ⟨le_trans ?_ h.1, h.2⟩
            show s.seq_num ≤ s.seq_num + ((data.take (min (min data.length
                MAX_SEGMENT_SIZE) avail.toNat)).length : Int)
            have hnn : (0 : Int) ≤ ((data.take (min (min data.length
                MAX_SEGMENT_SIZE) avail.toNat)).length : Int) := Int.ofNat_nonneg _
            omega

theorem send_data_preserves (s : TCPState) (now : ℚ) :
    (SimpleTCPSocket.send_data s now).1.st = s.st ∧
    (SimpleTCPSocket.send_data s now).1.send_base = s.send_base ∧
    (SimpleTCPSocket.send_data s now).1.estimated_rtt = s.estimated_rtt ∧
    (SimpleTCPSocket.send_data s now).1.dev_rtt = s.dev_rtt ∧
    (SimpleTCPSocket.send_data s now).1.timeout_interval
      = s.timeout_interval := by
  unfold SimpleTCPSocket.send_data
  exact send_data_loop_preserves now _ s _ []

theorem send_data_keys (s : TCPState) (now : ℚ)
    (hne : ∀ c ∈ s.send_buffer, ¬ c = []) :
    (∀ t ∈ (SimpleTCPSocket.send_data s now).1.timers,
      t ∈ s.timers ∨ s.seq_num ≤ t) ∧
    (∀ p ∈ (SimpleTCPSocket.send_data s now).1.unacked_segments,
      p ∈ s.unacked_segments ∨ (s.seq_num ≤ p.1 ∧ ¬ p.2 = [])) := by
  unfold SimpleTCPSocket.send_data
  exact send_data_loop_keys now _ s _ [] hne

theorem send_data_of_empty (s : TCPState) (now : ℚ)
    (h : s.send_buffer = []) :
    SimpleTCPSocket.send_data s now = (s, []) := by
  unfold SimpleTCPSocket.send_data
  simp only [SimpleTCPSocket.send_data_loop]
  rw [h]

theorem handle_ack_rtt_fields (s : TCPState) (a : Int) (now : ℚ) :
    (SimpleTCPSocket.handle_ack_rtt s a now).st = s.st ∧
    (SimpleTCPSocket.handle_ack_rtt s a now).seq_num = s.seq_num ∧
    (SimpleTCPSocket.handle_ack_rtt s a now).send_base = s.send_base ∧
    (SimpleTCPSocket.handle_ack_rtt s a now).send_buffer = s.send_buffer ∧
    (SimpleTCPSocket.handle_ack_rtt s a now).send_window = s.send_window ∧
    (SimpleTCPSocket.handle_ack_rtt s a now).timers = s.timers ∧
    (SimpleTCPSocket.handle_ack_rtt s a now).unacked_segments
      = s.unacked_segments := by
  unfold SimpleTCPSocket.handle_ack_rtt
  cases hmk : maxKeyBelow s.send_times a with
  | none => exact ⟨rfl, rfl, rfl, rfl, rfl, rfl, rfl⟩
  | some k =>
    dsimp only
    by_cases hs : (0 : ℚ) < now - (IntMap.lookup s.send_times k).getD 0
    · rw [if_pos hs]
      exact ⟨rfl, rfl, rfl, rfl, rfl, rfl, rfl⟩
    · rw [if_neg hs]
      exact ⟨rfl, rfl, rfl, rfl, rfl, rfl, rfl⟩

theorem handle_ack_eq_of_low (s : TCPState) (a : Int) (now : ℚ)
    (hst : ¬ s.st = ConnState.SYN_RCVD) (h : ¬ s.send_base < a) :
    SimpleTCPSocket.handle_ack s a now = (s, []) := by
  unfold SimpleTCPSocket.handle_ack
  rw [if_neg (fun hc => hst hc.1), if_neg h]

theorem handle_ack_eq_of_advance (s : TCPState) (a : Int) (now : ℚ)
    (hst : ¬ s.st = ConnState.SYN_RCVD) (h : s.send_base < a) :
    SimpleTCPSocket.handle_ack s a now =
      SimpleTCPSocket.send_data
        { SimpleTCPSocket.handle_ack_rtt s a now with
            send_base := a
            timers := (SimpleTCPSocket.handle_ack_rtt s a now).timers.filter
              (fun t => ¬ t < a)
            unacked_segments :=
              (SimpleTCPSocket.handle_ack_rtt s a now).unacked_segments.filter
                (fun p => ¬ (p.1 + (p.2.length : Int) ≤ a)) } now := by
  unfold SimpleTCPSocket.handle_ack
  rw [if_neg (fun hc => hst hc.1), if_pos h]

theorem handle_ack_st_established (s : TCPState) (a : Int) (now : ℚ)
    (hst : s.st = ConnState.ESTABLISHED) :
    (SimpleTCPSocket.handle_ack s a now).1.st = ConnState.ESTABLISHED := by
  have hns : ¬ s.st = ConnState.SYN_RCVD := by
    rw [hst]
    decide
  by_cases h : s.send_base < a
  · rw [handle_ack_eq_of_advance s a now hns h]
    rw [(send_data_preserves _ now).1]
    show (SimpleTCPSocket.handle_ack_rtt s a now).st = ConnState.ESTABLISHED
    rw [(handle_ack_rtt_fields s a now).1, hst]
  · rw [handle_ack_eq_of_low s a now hns h]
    exact hst

theorem handle_ack_base_mono (s : TCPState) (a : Int) (now : ℚ)
    (hst : s.st = ConnState.ESTABLISHED) :
    s.send_base ≤ (SimpleTCPSocket.handle_ack s a now).1.send_base := by
  have hns : ¬ s.st = ConnState.SYN_RCVD := by
    rw [hst]
    decide
  by_cases h : s.send_base < a
  · rw [handle_ack_eq_of_advance s a now hns h]
    rw [(send_data_preserves _ now).2.1]
    show s.send_base ≤ a
    omega
  · rw [handle_ack_eq_of_low s a now hns h]

theorem process_acks_base_mono (now : ℚ) :
    ∀ (acks : List Int) (s : TCPState), s.st = ConnState.ESTABLISHED →
    s.send_base ≤ (SimpleTCPSocket.process_acks now s acks).send_base := by
  intro acks
  induction acks with
  | nil =>
    intro s h
    exact le_refl _
  | cons a rest ih =>
    intro s h
    simp only [SimpleTCPSocket.process_acks]
    exact le_trans (handle_ack_base_mono s a now h)
      (ih _ (handle_ack_st_established s a now h))

theorem mem_insertByKey {q p : Int × List Nat} :
    ∀ {l : List (Int × List Nat)}, q ∈ insertByKey p l → q = p ∨ q ∈ l := by
  intro l
  induction l with
  | nil =>
    intro h
    rcases List.mem_cons.mp h with h | h
    · exact Or.inl h
    · exact absurd h (by simp)
  | cons r rest ih =>
    intro h
    unfold insertByKey at h
    by_cases hle : p.1 ≤ r.1
    · rw [if_pos hle] at h
      rcases List.mem_cons.mp h with h | h
      · exact Or.inl h
      · exact Or.inr h
    · rw [if_neg hle] at h
      rcases List.mem_cons.mp h with h | h
      · exact Or.inr (by rw [h]; exact List.mem_cons_self r rest)
      · rcases ih h with h | h
        · exact Or.inl h
        · exact Or.inr (List.mem_cons_of_mem r h)

theorem self_mem_insertByKey (p : Int × List Nat) :
    ∀ (l : List (Int × List Nat)), p ∈ insertByKey p l := by
  intro l
  induction l with
  | nil => exact List.mem_cons_self p []
  | cons r rest ih =>
    unfold insertByKey
    by_cases hle : p.1 ≤ r.1
    · rw [if_pos hle]
      exact List.mem_cons_self p (r :: rest)
    · rw [if_neg hle]
      exact List.mem_cons_of_mem r ih

theorem mem_sortByKey_of_mem {q : Int × List Nat} :
    ∀ {l : List (Int × List Nat)}, q ∈ l → q ∈ sortByKey l := by
  intro l
  induction l with
  | nil =>
    intro h
    exact absurd h (by simp)
  | cons p rest ih =>
    intro h
    unfold sortByKey
    rcases List.mem_cons.mp h with h | h
    · rw [h]
      exact self_mem_insertByKey p (sortByKey rest)
    · have := ih h
      clear ih h
      generalize sortByKey rest = l2 at this ⊢
      induction l2 with
      | nil => exact absurd this (by simp)
      | cons r rest2 ih2 =>
        unfold insertByKey
        by_cases hle : p.1 ≤ r.1
        · rw [if_pos hle]
          exact List.mem_cons_of_mem p this
        · rw [if_neg hle]
          rcases List.mem_cons.mp this with hh | hh
          · rw [hh]
            exact List.mem_cons_self r _
          · exact List.mem_cons_of_mem r (ih2 hh)

theorem fold_refresh_lookup (now : ℚ) :
    ∀ (ks : List (Int × List Nat)) (acc : TCPState) (x : Int),
    (x ∈ ks.map Prod.fst ∨ IntMap.lookup acc.send_times x = some now) →
    IntMap.lookup
      ((ks.foldl (fun acc p =>
        { acc with
            send_times := IntMap.set acc.send_times p.1 now
            timers := timerSet acc.timers p.1 }) acc).send_times) x
      = some now := by
  intro ks
  induction ks with
  | nil =>
    intro acc x h
    rcases h with h | h
    · exact absurd h (by simp)
    · exact h
  | cons p rest ih =>
    intro acc x h
    simp only [List.foldl_cons]
    by_cases hx : x = p.1
    · refine ih _ x (Or.inr ?_)
      show IntMap.lookup (IntMap.set acc.send_times p.1 now) x = some now
      rw [IntMap.lookup_set, if_pos hx]
    · rcases h with h | h
      · rw [List.map_cons] at h
        rcases List.mem_cons.mp h with h | h
        · exact absurd h hx
        · exact ih _ x (Or.inl h)
      · refine ih _ x (Or.inr ?_)
        show IntMap.lookup (IntMap.set acc.send_times p.1 now) x = some now
        rw [IntMap.lookup_set, if_neg hx]
        exact h

theorem timeout_refreshes_timestamp (s : TCPState) (q : Int) (now : ℚ)
    (p : Int × List Nat) (hp : p ∈ s.unacked_segments) (hq : q ≤ p.1) :
    IntMap.lookup
      (SimpleTCPSocket.timeout_handler s q now).1.send_times p.1 = some now := by
  unfold SimpleTCPSocket.timeout_handler
  have hpend : p ∈ s.unacked_segments.filter (fun r => q ≤ r.1) :=
    List.mem_filter.mpr ⟨hp, by simpa using hq⟩
  have hne : ¬ s.unacked_segments.filter (fun r => q ≤ r.1) = [] :=
    List.ne_nil_of_mem hpend
  rw [if_neg hne]
  refine fold_refresh_lookup now _ _ _ (Or.inl ?_)
  exact List.mem_map_of_mem Prod.fst (mem_sortByKey_of_mem hpend)

theorem send_data_timers_ge (u : TCPState) (now : ℚ) (a : Int)
    (hbuf : ∀ c ∈ u.send_buffer, ¬ c = [])
    (hts : ∀ t ∈ u.timers, ¬ t < a)
    (hseq : a ≤ u.seq_num) :
    ∀ t ∈ (SimpleTCPSocket.send_data u now).1.timers, ¬ t < a := by
  intro t ht
  rcases (send_data_keys u now hbuf).1 t ht with h | h
  · exact hts t h
  · omega

theorem send_data_unacked_uncovered (u : TCPState) (now : ℚ) (a : Int)
    (hbuf : ∀ c ∈ u.send_buffer, ¬ c = [])
    (hun : ∀ p ∈ u.unacked_segments, ¬ (p.1 + (p.2.length : Int) ≤ a))
    (hseq : a ≤ u.seq_num) :
    ∀ p ∈ (SimpleTCPSocket.send_data u now).1.unacked_segments,
      ¬ (p.1 + (p.2.length : Int) ≤ a) := by
  intro p hp
  rcases (send_data_keys u now hbuf).2 p hp with h | h
  · exact hun p h
  · have hlen : 0 < p.2.length := List.length_pos.mpr h.2
    have hlen2 : (1 : Int) ≤ (p.2.length : Int) := by exact_mod_cast hlen
    omega

/-- Concrete ESTABLISHED connection used by the TCP claims: seq_num has
reached 200, two outstanding segments at sequences 0 and 100 with
two-byte payloads, send timestamps 0 and 5, both timers running, and
the estimator at its initial values. -/
def tcpEstState : TCPState :=
  ⟨ConnState.ESTABLISHED, 200, 0, 0, [], [], 4096, 4096, 1, 0.5, 2,
    [0, 100], [(0, 0), (100, 5)], [(0, [7, 7]), (100, [8, 8])], 0⟩

/-- C3: on an ESTABLISHED connection, an ACK with number a at or below
send_base leaves the state unchanged and transmits nothing; an ACK with
a above send_base advances send_base exactly to a, and — for an ACK
covering only bytes actually sent, with no empty chunks queued — leaves
no timer with sequence below a and no unacknowledged segment fully
covered by a; send_base never decreases, over one ACK or any sequence
of processed ACKs. -/
theorem tcp_handle_ack_established :
    ∀ (s : TCPState) (a : Int) (now : ℚ),
    s.st = ConnState.ESTABLISHED →
    (¬ s.send_base < a → SimpleTCPSocket.handle_ack s a now = (s, [])) ∧
    (s.send_base < a →
      (SimpleTCPSocket.handle_ack s a now).1.send_base = a) ∧
    (s.send_base < a → a ≤ s.seq_num → (∀ c ∈ s.send_buffer, ¬ c = []) →
      (∀ t ∈ (SimpleTCPSocket.handle_ack s a now).1.timers, ¬ t < a) ∧
      (∀ p ∈ (SimpleTCPSocket.handle_ack s a now).1.unacked_segments,
        ¬ (p.1 + (p.2.length : Int) ≤ a))) ∧
    s.send_base ≤ (SimpleTCPSocket.handle_ack s a now).1.send_base ∧
    (∀ acks : List Int,
      s.send_base ≤ (SimpleTCPSocket.process_acks now s acks).send_base) := by
  intro s a now hst
  have hns : ¬ s.st = ConnState.SYN_RCVD := by
    rw [hst]
    decide
  refine ⟨?_, ?_, ?_, ?_, ?_⟩
  · intro h
    exact handle_ack_eq_of_low s a now hns h
  · intro hlt
    rw [handle_ack_eq_of_advance s a now hns hlt,
      (send_data_preserves _ now).2.1]
  · intro hlt hseq hchunks
    rw [handle_ack_eq_of_advance s a now hns hlt]
    constructor
    · refine send_data_timers_ge _ now a ?_ ?_ ?_
      · show ∀ c ∈ (SimpleTCPSocket.handle_ack_rtt s a now).send_buffer,
          ¬ c = []
        rw [(handle_ack_rtt_fields s a now).2.2.2.1]
        exact hchunks
      · show ∀ t ∈ (SimpleTCPSocket.handle_ack_rtt s a now).timers.filter
          (fun t => ¬ t < a), ¬ t < a
        intro t ht
        simpa using List.of_mem_filter ht
      · show a ≤ (SimpleTCPSocket.handle_ack_rtt s a now).seq_num
        rw [(handle_ack_rtt_fields s a now).2.1]
        exact hseq
    · refine send_data_unacked_uncovered _ now a ?_ ?_ ?_
      · show ∀ c ∈ (SimpleTCPSocket.handle_ack_rtt s a now).send_buffer,
          ¬ c = []
        rw [(handle_ack_rtt_fields s a now).2.2.2.1]
        exact hchunks
      · show ∀ p ∈ (SimpleTCPSocket.handle_ack_rtt s a
            now).unacked_segments.filter
          (fun p => ¬ (p.1 + (p.2.length : Int) ≤ a)),
          ¬ (p.1 + (p.2.length : Int) ≤ a)
        intro p hp
        simpa using List.of_mem_filter hp
      · show a ≤ (SimpleTCPSocket.handle_ack_rtt s a now).seq_num
        rw [(handle_ack_rtt_fields s a now).2.1]
        exact hseq
  · exact handle_ack_base_mono s a now hst
  · intro acks
    exact process_acks_base_mono now acks s hst

/-- Witness for the C3 theorem: on the concrete connection, an old ACK
is a no-op and an advancing ACK moves send_base to its number. -/
theorem tcp_handle_ack_established_witness :
    SimpleTCPSocket.handle_ack tcpEstState 0 6 = (tcpEstState, []) ∧
    (SimpleTCPSocket.handle_ack tcpEstState 150 6).1.send_base = 150 :=
  ⟨(tcp_handle_ack_established tcpEstState 0 6 rfl).1 (by decide),
   (tcp_handle_ack_established tcpEstState 150 6 rfl).2.1 (by decide)⟩

/-- C4 fails on the code: with outstanding segments at sequences 0
(sent at time 0) and 100 (sent at time 5), both fully covered by the
cumulative ACK 200 arriving at time 6, _handle_ack samples the RTT from
the latest timestamped sequence below the ACK (sequence 100, sample 1),
not from the earliest fully covered segment (sequence 0, sample 6): the
resulting estimate is 1, while the estimate the claim prescribes would
be 13/8. -/
theorem tcp_rtt_sample_not_earliest_cex :
    ¬ ((SimpleTCPSocket.handle_ack tcpEstState 200 6).1.estimated_rtt
      = specEstimatedAfterEarliest tcpEstState 200 6) := by
  have himpl : (SimpleTCPSocket.handle_ack tcpEstState 200
      6).1.estimated_rtt = 1 := by
    rw [handle_ack_eq_of_advance tcpEstState 200 6 (by decide) (by decide),
      (send_data_preserves _ 6).2.2.1]
    show (SimpleTCPSocket.handle_ack_rtt tcpEstState 200 6).estimated_rtt = 1
    unfold SimpleTCPSocket.handle_ack_rtt
    rw [show maxKeyBelow tcpEstState.send_times 200 = some 100 from rfl]
    dsimp only
    rw [show IntMap.lookup tcpEstState.send_times 100 = some (5 : ℚ) from rfl]
    rw [if_pos (show (0 : ℚ) < 6 - (some (5 : ℚ)).getD 0 by
      rw [Option.getD_some]
      norm_num)]
    show 0.875 * (1 : ℚ) + 0.125 * (6 - (some (5 : ℚ)).getD 0) = 1
    rw [Option.getD_some]
    norm_num
  have hspec : specEstimatedAfterEarliest tcpEstState 200 6 = 13 / 8 := by
    unfold specEstimatedAfterEarliest
    rw [show specEarliestCovered tcpEstState 200 = some 0 from rfl]
    dsimp only
    rw [show IntMap.lookup tcpEstState.send_times 0 = some (0 : ℚ) from rfl]
    show 0.875 * (1 : ℚ) + 0.125 * (6 - 0) = 13 / 8
    norm_num
  rw [himpl, hspec]
  norm_num

/-- C4 amended: the sample source of _handle_ack is the largest — the
latest, not the earliest — sequence in the timestamp table below the
ACK number; when such a sequence exists with timestamp t and the sample
now − t is positive, the new estimate is 0.875 times the old one plus
0.125 times that sample, and when no such sequence exists the estimate
is unchanged; moreover the timeout handler refreshes the stored send
timestamp of every retransmitted segment to the retransmission time
instead of excluding it, so later ACKs can sample retransmitted
segments (no Karn avoidance). -/
theorem tcp_rtt_behavior_amended :
    (∀ (s : TCPState) (a m : Int), maxKeyBelow s.send_times a = some m →
      m < a ∧ ∀ p ∈ s.send_times, p.1 < a → p.1 ≤ m) ∧
    (∀ (s : TCPState) (a : Int) (now : ℚ) (m : Int) (t : ℚ),
      s.st = ConnState.ESTABLISHED → s.send_base < a →
      maxKeyBelow s.send_times a = some m →
      IntMap.lookup s.send_times m = some t → 0 < now - t →
      (SimpleTCPSocket.handle_ack s a now).1.estimated_rtt =
        0.875 * s.estimated_rtt + 0.125 * (now - t)) ∧
    (∀ (s : TCPState) (a : Int) (now : ℚ),
      s.st = ConnState.ESTABLISHED → s.send_base < a →
      maxKeyBelow s.send_times a = none →
      (SimpleTCPSocket.handle_ack s a now).1.estimated_rtt
        = s.estimated_rtt) ∧
    (∀ (s : TCPState) (q : Int) (now : ℚ) (p : Int × List Nat),
      p ∈ s.unacked_segments → q ≤ p.1 →
      IntMap.lookup
        (SimpleTCPSocket.timeout_handler s q now).1.send_times p.1
        = some now) := by
  refine ⟨?_, ?_, ?_, ?_⟩
  · intro s a m h
    exact ⟨maxKeyBelow_lt a s.send_times m h, maxKeyBelow_ge a s.send_times m h⟩
  · intro s a now m t hst hlt hmk hlook hs
    have hns : ¬ s.st = ConnState.SYN_RCVD := by
      rw [hst]
      decide
    rw [handle_ack_eq_of_advance s a now hns hlt,
      (send_data_preserves _ now).2.2.1]
    show (SimpleTCPSocket.handle_ack_rtt s a now).estimated_rtt = _
    unfold SimpleTCPSocket.handle_ack_rtt
    rw [hmk]
    dsimp only
    rw [hlook]
    rw [if_pos (show (0 : ℚ) < now - (some t).getD 0 by
      rw [Option.getD_some]
      exact hs)]
    rfl
  · intro s a now hst hlt hmk
    have hns : ¬ s.st = ConnState.SYN_RCVD := by
      rw [hst]
      decide
    rw [handle_ack_eq_of_advance s a now hns hlt,
      (send_data_preserves _ now).2.2.1]
    show (SimpleTCPSocket.handle_ack_rtt s a now).estimated_rtt = _
    unfold SimpleTCPSocket.handle_ack_rtt
    rw [hmk]
  · intro s q now p hp hq
    exact timeout_refreshes_timestamp s q now p hp hq

/-- Witness for the amended C4 theorem on the concrete connection: the
ACK 200 at time 6 produces the estimate sampled from sequence 100, and
a timeout at time 9 refreshes the timestamp of segment 100 to 9. -/
theorem tcp_rtt_behavior_amended_witness :
    (SimpleTCPSocket.handle_ack tcpEstState 200 6).1.estimated_rtt
      = 0.875 * tcpEstState.estimated_rtt + 0.125 * (6 - 5) ∧
    IntMap.lookup
      (SimpleTCPSocket.timeout_handler tcpEstState 0 9).1.send_times 100
      = some 9 :=
  ⟨tcp_rtt_behavior_amended.2.1 tcpEstState 200 6 100 5 rfl (by decide)
      rfl rfl (by norm_num),
   tcp_rtt_behavior_amended.2.2.2 tcpEstState 0 9 (100, [8, 8])
      (by decide) (by decide)⟩

theorem update_rtt_timeout_at_base (x : ℚ) (h1 : 1 ≤ x) :
    (SimpleTCPSocket.update_rtt tcpEstState x).timeout_interval
      = x + 3 / 2 := by
  have habs : |x - (0.875 * tcpEstState.estimated_rtt + 0.125 * x)|
      = x - (0.875 * tcpEstState.estimated_rtt + 0.125 * x) := by
    refine abs_of_nonneg ?_
    show (0 : ℚ) ≤ x - (0.875 * 1 + 0.125 * x)
    linarith
  show SimpleTCPSocket.calculate_timeout
      (0.875 * tcpEstState.estimated_rtt + 0.125 * x)
      (0.75 * tcpEstState.dev_rtt +
        0.25 * |x - (0.875 * tcpEstState.estimated_rtt + 0.125 * x)|)
    = x + 3 / 2
  unfold SimpleTCPSocket.calculate_timeout
  rw [habs]
  show 0.875 * (1 : ℚ) + 0.125 * x +
      4 * (0.75 * (0.5 : ℚ) + 0.25 * (x - (0.875 * (1 : ℚ) + 0.125 * x)))
    = x + 3 / 2
  ring

/-- The bounded-timeout property asserted by claim C5: some fixed floor
and ceiling confine the timeout produced by every estimator update. -/
def rttTimeoutBoundedClaim : Prop :=
  ∃ lo hi : ℚ, ∀ (s : TCPState) (sample : ℚ),
    lo ≤ (SimpleTCPSocket.update_rtt s sample).timeout_interval ∧
    (SimpleTCPSocket.update_rtt s sample).timeout_interval ≤ hi

/-- C5 fails on the code: _update_rtt applies no floor or ceiling — for
the estimator at its initial values (estimate 1, deviation 0.5) a
sample x at least 1 yields timeout x + 3/2, so no pair of fixed bounds
can confine the timeout of every update. -/
theorem tcp_update_rtt_unclamped_cex : ¬ rttTimeoutBoundedClaim := by
  rintro ⟨lo, hi, h⟩
  have h2 := (h tcpEstState (max hi 1 + 1)).2
  rw [update_rtt_timeout_at_base (max hi 1 + 1)
    (by linarith [le_max_right hi 1])] at h2
  have h3 := le_max_left hi 1
  linarith

/-- C5 amended: one estimator update computes exactly
estimated = 0.875·estimated + 0.125·sample,
deviation = 0.75·deviation + 0.25·|sample − new estimated|, and
timeout = new estimated + 4·new deviation, with no floor or ceiling
applied: from the initial estimator state the timeout exceeds any given
bound for a large enough sample. -/
theorem tcp_update_rtt_formulas_amended :
    (∀ (s : TCPState) (sample : ℚ),
      (SimpleTCPSocket.update_rtt s sample).estimated_rtt
        = 0.875 * s.estimated_rtt + 0.125 * sample ∧
      (SimpleTCPSocket.update_rtt s sample).dev_rtt
        = 0.75 * s.dev_rtt +
          0.25 * |sample - (0.875 * s.estimated_rtt + 0.125 * sample)| ∧
      (SimpleTCPSocket.update_rtt s sample).timeout_interval
        = (SimpleTCPSocket.update_rtt s sample).estimated_rtt
          + 4 * (SimpleTCPSocket.update_rtt s sample).dev_rtt) ∧
    (∀ B : ℚ, ∃ sample : ℚ,
      B < (SimpleTCPSocket.update_rtt tcpEstState sample).timeout_interval) := by
  constructor
  · intro s sample
    exact ⟨rfl, rfl, rfl⟩
  · intro B
    refine ⟨max B 1 + 1, ?_⟩
    rw [update_rtt_timeout_at_base (max B 1 + 1)
      (by linarith [le_max_right B 1])]
    linarith [le_max_left B 1]

theorem connect_wait_aux_exit_le (poll : Nat → ConnState) :
    ∀ (r k : Nat), (SimpleTCPSocket.connect_wait_aux poll r k).2 ≤ k + r := by
  intro r
  induction r with
  | zero =>
    intro k
    unfold SimpleTCPSocket.connect_wait_aux
    by_cases h : ¬ poll k = ConnState.SYN_SENT
    · rw [if_pos h]
      show k ≤ k + 0
      omega
    · rw [if_neg h]
      show k ≤ k + 0
      omega
  | succ n ih =>
    intro k
    unfold SimpleTCPSocket.connect_wait_aux
    by_cases h : ¬ poll k = ConnState.SYN_SENT
    · rw [if_pos h]
      show k ≤ k + (n + 1)
      omega
    · rw [if_neg h]
      calc (SimpleTCPSocket.connect_wait_aux poll n (k + 1)).2
          ≤ (k + 1) + n := ih (k + 1)
        _ ≤ k + (n + 1) := by omega

theorem connect_wait_aux_stuck (poll : Nat → ConnState)
    (hp : ∀ n, poll n = ConnState.SYN_SENT) :
    ∀ (r k : Nat),
    (SimpleTCPSocket.connect_wait_aux poll r k).1 = Except.error () := by
  intro r
  induction r with
  | zero =>
    intro k
    unfold SimpleTCPSocket.connect_wait_aux
    rw [if_neg (by simp [hp k])]
  | succ n ih =>
    intro k
    unfold SimpleTCPSocket.connect_wait_aux
    rw [if_neg (by simp [hp k])]
    exact ih (k + 1)

theorem accept_wait_ack_aux_exit_le (poll : Nat → ConnState) :
    ∀ (r k : Nat),
    (SimpleTCPSocket.accept_wait_ack_aux poll r k).2 ≤ k + r := by
  intro r
  induction r with
  | zero =>
    intro k
    unfold SimpleTCPSocket.accept_wait_ack_aux
    by_cases h : ¬ poll k = ConnState.SYN_RCVD
    · rw [if_pos h]
      show k ≤ k + 0
      omega
    · rw [if_neg h]
      show k ≤ k + 0
      omega
  | succ n ih =>
    intro k
    unfold SimpleTCPSocket.accept_wait_ack_aux
    by_cases h : ¬ poll k = ConnState.SYN_RCVD
    · rw [if_pos h]
      show k ≤ k + (n + 1)
      omega
    · rw [if_neg h]
      calc (SimpleTCPSocket.accept_wait_ack_aux poll n (k + 1)).2
          ≤ (k + 1) + n := ih (k + 1)
        _ ≤ k + (n + 1) := by omega

theorem accept_wait_ack_aux_stuck (poll : Nat → ConnState)
    (hp : ∀ n, poll n = ConnState.SYN_RCVD) :
    ∀ (r k : Nat),
    (SimpleTCPSocket.accept_wait_ack_aux poll r k).1 = Except.error () := by
  intro r
  induction r with
  | zero =>
    intro k
    unfold SimpleTCPSocket.accept_wait_ack_aux
    rw [if_neg (by simp [hp k])]
  | succ n ih =>
    intro k
    unfold SimpleTCPSocket.accept_wait_ack_aux
    rw [if_neg (by simp [hp k])]
    exact ih (k + 1)

theorem accept_wait_syn_stuck (poll : Nat → ConnState)
    (hp : ∀ n, poll n = ConnState.LISTEN) :
    ∀ (fuel k : Nat), SimpleTCPSocket.accept_wait_syn poll fuel k = none := by
  intro fuel
  induction fuel with
  | zero =>
    intro k
    rfl
  | succ n ih =>
    intro k
    unfold SimpleTCPSocket.accept_wait_syn
    rw [if_pos (hp k)]
    exact ih (k + 1)

theorem recv_wait_aux_exit_le (bufAt : Nat → List (List Nat)) (n : Nat) :
    ∀ (r k : Nat),
    (SimpleTCPSocket.recv_wait_aux bufAt n r k).2.2 ≤ k + r := by
  intro r
  induction r with
  | zero =>
    intro k
    unfold SimpleTCPSocket.recv_wait_aux
    by_cases h : ¬ bufAt k = []
    · rw [if_pos h]
      show k ≤ k + 0
      omega
    · rw [if_neg h]
      show k ≤ k + 0
      omega
  | succ m ih =>
    intro k
    unfold SimpleTCPSocket.recv_wait_aux
    by_cases h : ¬ bufAt k = []
    · rw [if_pos h]
      show k ≤ k + (m + 1)
      omega
    · rw [if_neg h]
      calc (SimpleTCPSocket.recv_wait_aux bufAt n m (k + 1)).2.2
          ≤ (k + 1) + m := ih (k + 1)
        _ ≤ k + (m + 1) := by omega

theorem recv_wait_aux_empty (bufAt : Nat → List (List Nat)) (n : Nat)
    (hb : ∀ m, bufAt m = []) :
    ∀ (r k : Nat), (SimpleTCPSocket.recv_wait_aux bufAt n r k).1 = [] := by
  intro r
  induction r with
  | zero =>
    intro k
    unfold SimpleTCPSocket.recv_wait_aux
    rw [if_neg (by simp [hb k])]
  | succ m ih =>
    intro k
    unfold SimpleTCPSocket.recv_wait_aux
    rw [if_neg (by simp [hb k])]
    exact ih (k + 1)

/-- The accept call never returning: its first wait loop yields no exit
index for any observation window. -/
def acceptSynWaitNeverExits (poll : Nat → ConnState) : Prop :=
  ∀ fuel : Nat, SimpleTCPSocket.accept_wait_syn poll fuel 0 = none

/-- C6 fails on the code: the first wait loop of accept — while the
state is LISTEN — has no deadline at all, so against a peer that never
sends a SYN (the state stays LISTEN at every poll) accept blocks
indefinitely instead of raising after a bounded wait. -/
theorem tcp_accept_never_exits_cex :
    acceptSynWaitNeverExits (fun _ => ConnState.LISTEN) := by
  intro fuel
  exact accept_wait_syn_stuck (fun _ => ConnState.LISTEN)
    (fun n => rfl) fuel 0

/-- C6 amended: connect waits at most its 10-second bound (101 polls at
0.1 s) and raises a caller-visible failure against a peer that never
responds; the second phase of accept (awaiting the handshake-completing
ACK in SYN_RCVD) is likewise bounded and raises on expiry; recv exits
within its 5-second bound (51 polls) and returns empty bytes when no
data ever arrives; but the first phase of accept — waiting in LISTEN
for a SYN — is unbounded and never exits while no connection attempt
arrives. -/
theorem tcp_bounded_waits_amended :
    (∀ poll : Nat → ConnState,
      (SimpleTCPSocket.connect_wait poll).2 ≤ 101) ∧
    (∀ poll : Nat → ConnState, (∀ n, poll n = ConnState.SYN_SENT) →
      (SimpleTCPSocket.connect_wait poll).1 = Except.error ()) ∧
    (∀ poll : Nat → ConnState,
      (SimpleTCPSocket.accept_wait_ack poll).2 ≤ 101) ∧
    (∀ poll : Nat → ConnState, (∀ n, poll n = ConnState.SYN_RCVD) →
      (SimpleTCPSocket.accept_wait_ack poll).1 = Except.error ()) ∧
    (∀ (st : ConnState) (bufAt : Nat → List (List Nat)) (n : Nat),
      (SimpleTCPSocket.recv st bufAt n).2.2 ≤ 51) ∧
    (∀ (bufAt : Nat → List (List Nat)) (n : Nat), (∀ m, bufAt m = []) →
      (SimpleTCPSocket.recv ConnState.ESTABLISHED bufAt n).1 = []) ∧
    (∀ (poll : Nat → ConnState) (fuel k : Nat),
      (∀ n, poll n = ConnState.LISTEN) →
      SimpleTCPSocket.accept_wait_syn poll fuel k = none) := by
  refine ⟨?_, ?_, ?_, ?_, ?_, ?_, ?_⟩
  · intro poll
    exact connect_wait_aux_exit_le poll 101 0
  · intro poll hp
    exact connect_wait_aux_stuck poll hp 101 0
  · intro poll
    exact accept_wait_ack_aux_exit_le poll 101 0
  · intro poll hp
    exact accept_wait_ack_aux_stuck poll hp 101 0
  · intro st bufAt n
    unfold SimpleTCPSocket.recv
    by_cases h : ¬ st = ConnState.ESTABLISHED ∧ ¬ st = ConnState.CLOSE_WAIT
    · rw [if_pos h]
      show (0 : Nat) ≤ 51
      omega
    · rw [if_neg h]
      exact recv_wait_aux_exit_le bufAt n 51 0
  · intro bufAt n hb
    unfold SimpleTCPSocket.recv
    rw [if_neg (by simp)]
    exact recv_wait_aux_empty bufAt n hb 51 0
  · intro poll fuel k hp
    exact accept_wait_syn_stuck poll hp fuel k

/-- Witness for the amended C6 theorem: a never-answering peer makes
connect fail, the SYN_RCVD wait of accept fail, and recv return empty
bytes, all after their bounded waits. -/
theorem tcp_bounded_waits_amended_witness :
    (SimpleTCPSocket.connect_wait (fun _ => ConnState.SYN_SENT)).1
      = Except.error () ∧
    (SimpleTCPSocket.accept_wait_ack (fun _ => ConnState.SYN_RCVD)).1
      = Except.error () ∧
    (SimpleTCPSocket.recv ConnState.ESTABLISHED (fun _ => []) 10).1 = [] :=
  ⟨tcp_bounded_waits_amended.2.1 _ (fun _ => rfl),
   tcp_bounded_waits_amended.2.2.2.1 _ (fun _ => rfl),
   tcp_bounded_waits_amended.2.2.2.2.2.1 _ 10 (fun _ => rfl)⟩

/-- C10: recv called while the connection state is neither ESTABLISHED
nor CLOSE_WAIT returns empty bytes at once — zero polls, no bounded
wait — leaves the receive buffer exactly as it was, and raises no
error (the call returns normally). -/
theorem tcp_recv_not_connected :
    ∀ (st : ConnState) (bufAt : Nat → List (List Nat)) (n : Nat),
    ¬ st = ConnState.ESTABLISHED → ¬ st = ConnState.CLOSE_WAIT →
    SimpleTCPSocket.recv st bufAt n = ([], bufAt 0, 0) := by
  intro st bufAt n h1 h2
  unfold SimpleTCPSocket.recv
  rw [if_pos ⟨h1, h2⟩]

/-- Witness for the C10 theorem: recv on a CLOSED socket with a
nonempty buffer returns empty bytes immediately and consumes nothing. -/
theorem tcp_recv_not_connected_witness :
    SimpleTCPSocket.recv ConnState.CLOSED (fun _ => [[1, 2]]) 5
      = ([], [[1, 2]], 0) :=
  tcp_recv_not_connected ConnState.CLOSED (fun _ => [[1, 2]]) 5
    (by decide) (by decide)
